import Mathlib

/-!
Verification development for the confam email-to-transaction ingestion
pipeline.  The definitions shallowly embed the three Deno edge functions
(the webhook ingester, the dual-mode gmail poller, the older standalone
gmail poller) and the SQL schema of the transaction store; external
effects (the Gemini model call, Gmail fetches, database writes) are
modelled as explicit oracle inputs, and machine strings/numbers as
`String`/`ℚ`.  Theorems at the end settle the frozen claims.
-/

set_option autoImplicit false

namespace Confam

/-! ## JavaScript string primitives

ASCII-faithful models of the JS string operations the source uses;
the source data (bank domains, header fields, model JSON) is ASCII.
-/

/-- Characters matched by the JS regex class backslash-s (ASCII part). -/
def isJsSpace (c : Char) : Bool :=
  c = ' ' || c = '\t' || c = '\n' || c = '\r' || c = '\x0b' || c = '\x0c'

/-- JS `String.prototype.trim` on a character list (ASCII whitespace). -/
def trimChars (l : List Char) : List Char :=
  ((l.dropWhile isJsSpace).reverse.dropWhile isJsSpace).reverse

/-- JS `String.prototype.trim`. -/
def jsTrim (s : String) : String := String.mk (trimChars s.data)

/-- JS `String.prototype.toLowerCase` (ASCII range, which covers the data). -/
def jsToLower (l : List Char) : List Char := l.map Char.toLower

/-- JS `String.prototype.endsWith`. -/
def jsEndsWith (s pat : String) : Bool := List.isSuffixOf pat.data s.data

/-- JS `str.split(sep)` for the single-character separator at-sign,
as used by `email.split("@")`. -/
def splitOnAt : List Char → List (List Char)
  | [] => [[]]
  | c :: rest =>
    if c = '@' then [] :: splitOnAt rest
    else
      match splitOnAt rest with
      | [] => [[c]]
      | h :: t => (c :: h) :: t

/-- Truthiness of a JS `string | null | undefined` value:
`undefined`/`null` and the empty string are falsy. -/
def jsTruthyStr : Option String → Bool
  | none => false
  | some s => s ≠ ""

/-! ## Sender verification filter (webhook edge function)

Source: `isAllowedDomain` and `ALLOWED_BANK_DOMAINS` in the
payment-webhook edge function.
-/

/-- The allow-list of bank domains, verbatim from the source. -/
def ALLOWED_BANK_DOMAINS : List String :=
  ["gtbank.com", "accessbankplc.com", "zenithbank.com", "ubagroup.com",
   "firstbanknig.com", "opay-nigeria.com", "moniepoint.com", "kuda.co",
   "alat.ng", "wemabank.com", "fidelitybank.ng", "ecobank.com",
   "fairmoney.ng", "stanbicibtc.com", "sterling.ng", "unionbankng.com",
   "palmpay.com", "getcarbon.co", "safehavenmfb.com", "polarisbanklimited.com"]

/-- Leftmost match of the JS regex `<([^>]+)>` (capture group 1): the first
angle bracket open followed by a nonempty run of non-close characters and a
close bracket; on failure the scan restarts one character later. -/
def matchAngle : List Char → Option (List Char)
  | [] => none
  | '<' :: rest =>
    if (rest.takeWhile (fun c => c ≠ '>')).length > 0 &&
        (rest.drop (rest.takeWhile (fun c => c ≠ '>')).length).head? = some '>' then
      some (rest.takeWhile (fun c => c ≠ '>'))
    else matchAngle rest
  | _ :: rest => matchAngle rest

/-- Does a maximal non-space run contain a matchable at-sign, i.e. one
preceded and followed by at least one non-space character of the run? -/
def bareRunOk (run : List Char) : Bool :=
  ((run.drop 1).dropLast).contains '@'

/-- Leftmost match of the JS regex for a bare address (capture group 1,
which equals the whole match): with greedy backtracking the match at a
position is exactly the maximal non-space run starting there, provided
that run contains an at-sign that is neither its first nor its last
character. -/
def matchBare : List Char → Option (List Char)
  | [] => none
  | c :: rest =>
    if isJsSpace c then matchBare rest
    else if bareRunOk (c :: rest.takeWhile (fun d => ¬ isJsSpace d)) then
      some (c :: rest.takeWhile (fun d => ¬ isJsSpace d))
    else matchBare rest

/-- The address string the filter works on: capture of the angle-bracket
pattern, else capture of the bare-address pattern, else the raw header
(`emailMatch?.[1] ?? fromHeader`). -/
def extractedEmail (fromHeader : String) : String :=
  match matchAngle fromHeader.data with
  | some cap => String.mk cap
  | none =>
    match matchBare fromHeader.data with
    | some cap => String.mk cap
    | none => fromHeader

/-- `email.split("@")[1]?.toLowerCase().trim() ?? ""`. -/
def domainOf (fromHeader : String) : String :=
  match (splitOnAt (extractedEmail fromHeader).data).get? 1 with
  | some d => String.mk (trimChars (jsToLower d))
  | none => ""

/-- `isAllowedDomain` from the webhook edge function. -/
def isAllowedDomain (fromHeader : String) : Bool :=
  ALLOWED_BANK_DOMAINS.any fun allowed =>
    domainOf fromHeader == allowed || jsEndsWith (domainOf fromHeader) ("." ++ allowed)

/-! ## JSON values and `JSON.parse`

The extraction routines run the platform `JSON.parse` on the model's
reply and then duck-type the result.  We embed JSON values, with JS
numbers idealised as rationals, and a recursive-descent parser for the
JSON grammar (strings restricted to the escapes the grammar names,
with BMP code points).
-/

/-- A parsed JSON value.  Object fields are kept in source order;
lookup takes the last binding, as `JSON.parse` does for duplicates. -/
inductive Jval where
  | jnull
  | jbool (b : Bool)
  | jnum (q : ℚ)
  | jstr (s : String)
  | jarr (elems : List Jval)
  | jobj (fields : List (String × Jval))
deriving Repr

/-- JS property access `v.k` on a parsed value: `none` plays `undefined`. -/
def Jval.getField : Jval → String → Option Jval
  | Jval.jobj fs, k => (fs.reverse.find? (fun p => p.1 = k)).map Prod.snd
  | _, _ => none

/-- JS truthiness of a possibly-`undefined` parsed value. -/
def jsTruthy : Option Jval → Bool
  | none => false
  | some Jval.jnull => false
  | some (Jval.jbool b) => b
  | some (Jval.jnum q) => q ≠ 0
  | some (Jval.jstr s) => s ≠ ""
  | some (Jval.jarr _) => true
  | some (Jval.jobj _) => true

/-- Decimal rendering of an integer, as JS renders integral numbers. -/
def intToString (n : ℤ) : String :=
  if n < 0 then "-" ++ Nat.repr n.natAbs else Nat.repr n.natAbs

/-- JS number-to-string coercion; integral values render exactly as JS
does, non-integral ones render as a fraction (stands in for JS float
formatting, which is outside this model and unused by the claims). -/
def jsNumToString (q : ℚ) : String :=
  if q.den = 1 then intToString q.num
  else intToString q.num ++ "/" ++ Nat.repr q.den

mutual
/-- JS array-to-string: elements joined with commas (Array.prototype.join). -/
def jsArrToString : List Jval → String
  | [] => ""
  | [x] => jsElemToString x
  | x :: y :: xs => jsElemToString x ++ "," ++ jsArrToString (y :: xs)

/-- JS rendering of one array element: null renders empty inside a join. -/
def jsElemToString : Jval → String
  | Jval.jnull => ""
  | Jval.jbool true => "true"
  | Jval.jbool false => "false"
  | Jval.jnum q => jsNumToString q
  | Jval.jstr s => s
  | Jval.jarr xs => jsArrToString xs
  | Jval.jobj _ => "[object Object]"
end

/-- JS `String(v)` coercion of a parsed value. -/
def jsToString : Jval → String
  | Jval.jnull => "null"
  | Jval.jbool true => "true"
  | Jval.jbool false => "false"
  | Jval.jnum q => jsNumToString q
  | Jval.jstr s => s
  | Jval.jarr xs => jsArrToString xs
  | Jval.jobj _ => "[object Object]"

/-- JSON structural whitespace. -/
def jsonWs (c : Char) : Bool := c = ' ' || c = '\t' || c = '\n' || c = '\r'

/-- Hex digit value for string escapes. -/
def hexVal (c : Char) : Option Nat :=
  if '0' ≤ c ∧ c ≤ '9' then some (c.toNat - '0'.toNat)
  else if 'a' ≤ c ∧ c ≤ 'f' then some (c.toNat - 'a'.toNat + 10)
  else if 'A' ≤ c ∧ c ≤ 'F' then some (c.toNat - 'A'.toNat + 10)
  else none

/-- Parse the body of a JSON string after the opening quote. -/
def parseStrBody : List Char → Option (List Char × List Char)
  | [] => none
  | '"' :: rest => some ([], rest)
  | '\\' :: e :: rest =>
    match e with
    | '"' => (parseStrBody rest).map (fun p => ('"' :: p.1, p.2))
    | '\\' => (parseStrBody rest).map (fun p => ('\\' :: p.1, p.2))
    | '/' => (parseStrBody rest).map (fun p => ('/' :: p.1, p.2))
    | 'b' => (parseStrBody rest).map (fun p => ('\x08' :: p.1, p.2))
    | 'f' => (parseStrBody rest).map (fun p => ('\x0c' :: p.1, p.2))
    | 'n' => (parseStrBody rest).map (fun p => ('\n' :: p.1, p.2))
    | 'r' => (parseStrBody rest).map (fun p => ('\r' :: p.1, p.2))
    | 't' => (parseStrBody rest).map (fun p => ('\t' :: p.1, p.2))
    | 'u' =>
      match rest with
      | a :: b :: c :: d :: rest2 =>
        match hexVal a, hexVal b, hexVal c, hexVal d with
        | some x, some y, some z, some w =>
          (parseStrBody rest2).map
            (fun p => (Char.ofNat (((x * 16 + y) * 16 + z) * 16 + w) :: p.1, p.2))
        | _, _, _, _ => none
      | _ => none
    | _ => none
  | c :: rest =>
    if c.toNat < 32 then none
    else (parseStrBody rest).map (fun p => (c :: p.1, p.2))

/-- One or more decimal digits. -/
def parseDigits : List Char → Option (List Char × List Char)
  | s =>
    let ds := s.takeWhile (fun c => '0' ≤ c ∧ c ≤ '9')
    if ds.isEmpty then none else some (ds, s.drop ds.length)

/-- Numeric value of a digit run. -/
def digitsVal (ds : List Char) : Nat :=
  ds.foldl (fun acc c => acc * 10 + (c.toNat - '0'.toNat)) 0

/-- Parse a JSON number per the JSON grammar (sign, integer part without
leading zeros, optional fraction, optional exponent). -/
def parseNumber (s : List Char) : Option (ℚ × List Char) := do
  let (neg, s1) := match s with
    | '-' :: r => (true, r)
    | r => (false, r)
  let (ints, s2) ← parseDigits s1
  if ints.length > 1 ∧ ints.head? = some '0' then none else
  let (fr, s3) ← (match s2 with
    | '.' :: r => (parseDigits r).map (fun p => (p.1, p.2))
    | r => some (([] : List Char), r))
  let (ex, s4) ← (match s3 with
    | 'e' :: r | 'E' :: r =>
      (match r with
       | '+' :: r2 => (parseDigits r2).map (fun p => ((1 : ℤ) * p.1.foldl (fun a c => a * 10 + (c.toNat - 48 : ℤ)) 0, p.2))
       | '-' :: r2 => (parseDigits r2).map (fun p => (-(p.1.foldl (fun a c => a * 10 + (c.toNat - 48 : ℤ)) 0), p.2))
       | r2 => (parseDigits r2).map (fun p => (p.1.foldl (fun a c => a * 10 + (c.toNat - 48 : ℤ)) 0, p.2)))
    | r => some ((0 : ℤ), r))
  let mantissa : ℚ := (digitsVal ints : ℚ) + (digitsVal fr : ℚ) / ((10 : ℚ) ^ fr.length)
  let signed : ℚ := if neg then -mantissa else mantissa
  some (signed * (10 : ℚ) ^ ex, s4)

mutual
/-- Parse one JSON value; `fuel` bounds nesting depth. -/
def parseVal (fuel : Nat) (s : List Char) : Option (Jval × List Char) :=
  match fuel with
  | 0 => none
  | fuel + 1 =>
    match s with
    | 'n' :: 'u' :: 'l' :: 'l' :: r => some (Jval.jnull, r)
    | 't' :: 'r' :: 'u' :: 'e' :: r => some (Jval.jbool true, r)
    | 'f' :: 'a' :: 'l' :: 's' :: 'e' :: r => some (Jval.jbool false, r)
    | '"' :: r => (parseStrBody r).map (fun p => (Jval.jstr (String.mk p.1), p.2))
    | '[' :: r =>
      (match r.dropWhile jsonWs with
       | ']' :: r2 => some (Jval.jarr [], r2)
       | r2 => (parseArrItems fuel r2).map (fun p => (Jval.jarr p.1, p.2)))
    | '{' :: r =>
      (match r.dropWhile jsonWs with
       | '}' :: r2 => some (Jval.jobj [], r2)
       | r2 => (parseObjItems fuel r2).map (fun p => (Jval.jobj p.1, p.2)))
    | _ => (parseNumber s).map (fun p => (Jval.jnum p.1, p.2))

/-- Parse comma-separated array elements up to the closing bracket. -/
def parseArrItems (fuel : Nat) (s : List Char) : Option (List Jval × List Char) :=
  match fuel with
  | 0 => none
  | fuel + 1 => do
    let (v, r) ← parseVal fuel (s.dropWhile jsonWs)
    match r.dropWhile jsonWs with
    | ']' :: r2 => some ([v], r2)
    | ',' :: r2 => (parseArrItems fuel r2).map (fun p => (v :: p.1, p.2))
    | _ => none

/-- Parse comma-separated object members up to the closing brace. -/
def parseObjItems (fuel : Nat) (s : List Char) : Option (List (String × Jval) × List Char) :=
  match fuel with
  | 0 => none
  | fuel + 1 =>
    match s.dropWhile jsonWs with
    | '"' :: r => do
      let (k, r1) ← parseStrBody r
      match r1.dropWhile jsonWs with
      | ':' :: r2 => do
        let (v, r3) ← parseVal fuel (r2.dropWhile jsonWs)
        match r3.dropWhile jsonWs with
        | '}' :: r4 => some ([(String.mk k, v)], r4)
        | ',' :: r4 => (parseObjItems fuel r4).map (fun p => ((String.mk k, v) :: p.1, p.2))
        | _ => none
      | _ => none
    | _ => none
end

/-- `JSON.parse`: parse one value surrounded by optional whitespace and
require the whole input to be consumed; any violation yields `none`,
standing for the thrown `SyntaxError` the callers catch. -/
def jsonParse (s : String) : Option Jval :=
  match parseVal (s.length + 1) (s.data.dropWhile jsonWs) with
  | some (v, rest) => if (rest.dropWhile jsonWs).isEmpty then some v else none
  | none => none

/-! ## Extraction engines

Each edge function has its own extraction routine.  The Gemini HTTP
round trip is an oracle input: its observable outcome is whether the
response was 2xx and the text at `candidates[0].content.parts[0].text`
(absent when the reply carries no candidate).  Subject, sender and
truncated body only feed the prompt, so they do not appear here.
-/

/-- Observable outcome of one Gemini API call. -/
structure GemResp where
  ok : Bool
  text : Option String
deriving Repr, DecidableEq

/-- The record an extraction routine hands to the persistence step. -/
structure Extracted where
  amount : ℚ
  sender_name : String
  bank_source : String
deriving Repr, DecidableEq

/-- Global replace of the fence opener (backtick-backtick-backtick-json,
with one optional following newline), as the first `replace` call does. -/
def stripFenceJson : List Char → List Char
  | '`' :: '`' :: '`' :: 'j' :: 's' :: 'o' :: 'n' :: '\n' :: rest => stripFenceJson rest
  | '`' :: '`' :: '`' :: 'j' :: 's' :: 'o' :: 'n' :: rest => stripFenceJson rest
  | c :: rest => c :: stripFenceJson rest
  | [] => []

/-- Global replace of a bare fence (three backticks, optional newline),
as the second `replace` call does. -/
def stripFence : List Char → List Char
  | '`' :: '`' :: '`' :: '\n' :: rest => stripFence rest
  | '`' :: '`' :: '`' :: rest => stripFence rest
  | c :: rest => c :: stripFence rest
  | [] => []

/-- `text.replace(fence-json).replace(fence).trim()` shared by the
webhook and the dual-mode poller. -/
def cleanFences (text : String) : String :=
  String.mk (trimChars (stripFence (stripFenceJson text.data)))

/-- `parsed.x ?? dflt`: JS nullish coalescing on a property access. -/
def coalesceJs (v : Option Jval) (dflt : Jval) : Jval :=
  match v with
  | none => dflt
  | some Jval.jnull => dflt
  | some w => w

namespace Webhook

/-- `extractWithGemini` of the payment webhook: non-2xx, empty or
literal-null text, unparsable JSON, non-positive or non-numeric
`amount`, or falsy `sender_name` all yield `none`; otherwise the
validated record, with `bank_source` defaulted to Unknown. -/
def extractWithGemini (resp : GemResp) : Option Extracted :=
  if !resp.ok then none
  else if jsTrim (resp.text.getD "") = "" || jsTrim (resp.text.getD "") = "null" then none
  else
    match jsonParse (cleanFences (jsTrim (resp.text.getD ""))) with
    | none => none
    | some parsed =>
      match Jval.getField parsed "amount" with
      | some (Jval.jnum q) =>
        if jsTruthy (some parsed) && decide (q > 0) && jsTruthy (Jval.getField parsed "sender_name") then
          some { amount := q
                 sender_name := jsToString ((Jval.getField parsed "sender_name").getD Jval.jnull)
                 bank_source := jsToString (coalesceJs (Jval.getField parsed "bank_source") (Jval.jstr "Unknown")) }
        else none
      | _ => none

/-- The duck-typed validation the webhook applies to the parsed model
reply: `parsed && typeof parsed.amount === "number" && parsed.amount >
0 && parsed.sender_name`. -/
def validExtraction (parsed : Jval) : Bool :=
  match Jval.getField parsed "amount" with
  | some (Jval.jnum q) =>
    jsTruthy (some parsed) && decide (q > 0) && jsTruthy (Jval.getField parsed "sender_name")
  | _ => false

end Webhook

namespace Poller

/-- `extractWithGemini` of the dual-mode gmail poller: same pipeline
but with no empty/null-text pre-check and, notably, no positivity
requirement on `amount` — only `typeof parsed.amount === "number"`. -/
def extractWithGemini (resp : GemResp) : Option Extracted :=
  if !resp.ok then none
  else
    match jsonParse (cleanFences (jsTrim (resp.text.getD ""))) with
    | none => none
    | some parsed =>
      match Jval.getField parsed "amount" with
      | some (Jval.jnum q) =>
        if jsTruthy (some parsed) && jsTruthy (Jval.getField parsed "sender_name") then
          some { amount := q
                 sender_name := jsToString ((Jval.getField parsed "sender_name").getD Jval.jnull)
                 bank_source := jsToString (coalesceJs (Jval.getField parsed "bank_source") (Jval.jstr "Unknown")) }
        else none
      | _ => none

end Poller

namespace OldPoller

/-- `extractTransactionFromEmail` of the standalone gmail poller: no
fence stripping, and on success it returns the parsed object itself —
no coercion of `sender_name` and no `bank_source` defaulting. -/
def extractTransactionFromEmail (resp : GemResp) : Option Jval :=
  if !resp.ok then none
  else
    match resp.text with
    | none => none
    | some t =>
      if jsTrim t = "" then none
      else
        match jsonParse (jsTrim t) with
        | none => none
        | some parsed =>
          match Jval.getField parsed "amount" with
          | some (Jval.jnum _) =>
            if jsTruthy (some parsed) && jsTruthy (Jval.getField parsed "sender_name") then
              some parsed
            else none
          | _ => none

end OldPoller

/-- Observer: the `amount` field of an optional parsed object, when it
is a JSON number. -/
def amountOf (v : Option Jval) : Option ℚ :=
  v.bind fun j =>
    match Jval.getField j "amount" with
    | some (Jval.jnum q) => some q
    | _ => none

/-- Observer: the `bank_source` field of an optional parsed object. -/
def bankSourceOf (v : Option Jval) : Option Jval :=
  v.bind fun j => Jval.getField j "bank_source"

/-! ## Transaction store and SQL schema

The persisted rows the edge functions read and write.  Rows carry the
fields the application manipulates; `message_id` is optional because
only the webhook supplies it.  Separately, `Schema` records the columns
and uniqueness constraints the migration files actually declare for
`public.transactions`.
-/

/-- A row of the `transactions` store as the edge functions use it. -/
structure Txn where
  id : Nat
  company_id : String
  amount : ℚ
  sender_name : String
  bank_source : String
  status : String
  message_id : Option String
deriving Repr, DecidableEq

/-- The transaction store. -/
abbrev Store := List Txn

namespace Schema

/-- Columns of `CREATE TABLE public.transactions` in the migrations. -/
def transactionsColumns : List String :=
  ["id", "company_id", "amount", "sender_name", "bank_source", "status", "created_at"]

/-- Column sets with a uniqueness guarantee in that table: only the
primary key.  No `UNIQUE` constraint appears on any other column in any
migration in the repository. -/
def transactionsUniqueConstraints : List (List String) := [["id"]]

end Schema

/-- Response bodies the three edge functions can produce, one
constructor per JSON shape in the source. -/
inductive RBody where
  | errMsg (msg : String)
  | skippedDomain (sender : Option String)
  | skippedDuplicate
  | noPaymentData
  | webhookOk (amount : ℚ) (sender : String)
  | pollSummary (processed succeeded failed : Nat)
  | oldPollSummary (processed inserted : Nat) (transactions : List Txn)
deriving Repr, DecidableEq

/-- An HTTP response. -/
structure Resp where
  status : Nat
  body : RBody
deriving Repr, DecidableEq

/-! ## Webhook edge function (`serve` handler of the payment webhook) -/

namespace Webhook

/-- Environment variables the webhook reads. -/
structure Env where
  GEMINI_API_KEY : Option String
  SUPABASE_URL : Option String
  ANON_KEY : Option String
  WEBHOOK_SECRET : Option String
deriving Repr, DecidableEq

/-- One webhook request: the shared-secret header and the fields of the
JSON body (a body that fails to parse contributes all-absent fields,
matching `req.json().catch(() => (\x7b\x7d))`). -/
structure Req where
  secretHeader : Option String
  sender : Option String
  subject : Option String
  text : Option String
  html : Option String
  company_id : Option String
  message_id : Option String
deriving Repr, DecidableEq

/-- Column names of the webhook's insert payload (it writes
`message_id` even though no migration declares that column). -/
def insertColumns : List String :=
  ["company_id", "amount", "sender_name", "bank_source", "status", "message_id"]

/-- The `serve` handler of the payment webhook.  External effects are
oracle inputs: `gem` is the Gemini call outcome, `insertErr` the
database insert outcome, `newId` the id the store assigns.  Returns the
HTTP response and the store after the request.  The dedup lookup is
`.eq("message_id", ...).maybeSingle()` with only `data` destructured:
`existing` is non-null exactly when one row matches — with two or more
matching rows `maybeSingle` reports an error (ignored by the code) and
null data, so the request falls through to the insert. -/
def handler (env : Env) (req : Req) (store : Store) (gem : GemResp)
    (insertErr : Option String) (newId : Nat) : Resp × Store :=
  if !(jsTruthyStr env.GEMINI_API_KEY && jsTruthyStr env.SUPABASE_URL && jsTruthyStr env.ANON_KEY) then
    (⟨500, RBody.errMsg "Missing environment variables"⟩, store)
  else if jsTruthyStr env.WEBHOOK_SECRET && req.secretHeader != env.WEBHOOK_SECRET then
    (⟨401, RBody.errMsg "Unauthorized"⟩, store)
  else if !jsTruthyStr req.company_id then
    (⟨400, RBody.errMsg "company_id required"⟩, store)
  else if !isAllowedDomain (req.sender.getD "") then
    (⟨200, RBody.skippedDomain req.sender⟩, store)
  else if jsTruthyStr req.message_id &&
      (store.countP (fun t => t.message_id == req.message_id) == 1) then
    (⟨200, RBody.skippedDuplicate⟩, store)
  else
    match extractWithGemini gem with
    | none => (⟨200, RBody.noPaymentData⟩, store)
    | some ext =>
      match insertErr with
      | some e => (⟨500, RBody.errMsg e⟩, store)
      | none =>
        (⟨200, RBody.webhookOk ext.amount ext.sender_name⟩,
         store ++ [{ id := newId
                     company_id := req.company_id.getD ""
                     amount := ext.amount
                     sender_name := ext.sender_name
                     bank_source := ext.bank_source
                     status := "completed"
                     message_id := req.message_id }])

end Webhook

/-! ## Dual-mode gmail poller (`serve` handler of `gmail-poller/index.ts`) -/

namespace Poller

/-- Environment variables the dual-mode poller reads. -/
structure Env where
  GEMINI_API_KEY : Option String
  SUPABASE_URL : Option String
  SUPABASE_SERVICE_ROLE_KEY : Option String
deriving Repr, DecidableEq

/-- Request body of the poller. -/
structure Req where
  company_id : Option String
  access_token : Option String
deriving Repr, DecidableEq

/-- Oracles for one Gmail message in mode 1: the per-message fetch
outcome, the Gemini call outcome, the insert outcome and the id the
store would assign to the inserted row. -/
structure M1Item where
  newId : Nat
  fetchOk : Bool
  gem : GemResp
  insertErr : Option String
deriving Repr, DecidableEq

/-- Oracles for mode 1: the message-list call and one entry per listed
message. -/
structure M1Data where
  listOk : Bool
  listStatus : Nat
  items : List M1Item
deriving Repr, DecidableEq

/-- Oracles for mode 2, keyed by transaction id: the Gemini call for a
row, the outcome of the completed-update, the outcome of the
failed-update (whose error the code ignores), and the outcome of the
initial select. -/
structure M2Oracles where
  gem : Nat → GemResp
  updErr : Nat → Option String
  updErrF : Nat → Option String
  fetchErr : Option String

/-- Mode 1 loop body, one fetched message at a time, threading the
store and the success/failure counters. -/
def m1Fold (company : String) : List M1Item → Store → Nat → Nat → Store × Nat × Nat
  | [], st, s, f => (st, s, f)
  | it :: rest, st, s, f =>
    if !it.fetchOk then m1Fold company rest st s (f + 1)
    else
      match extractWithGemini it.gem with
      | none => m1Fold company rest st s (f + 1)
      | some ext =>
        match it.insertErr with
        | some _ => m1Fold company rest st s (f + 1)
        | none =>
          m1Fold company rest
            (st ++ [{ id := it.newId
                      company_id := company
                      amount := ext.amount
                      sender_name := ext.sender_name
                      bank_source := ext.bank_source
                      status := "completed"
                      message_id := none }])
            (s + 1) f

/-- `update(...).eq("id", tid)`: apply a field update to every stored
row with the given id. -/
def applyUpdate (st : Store) (tid : Nat) (f : Txn → Txn) : Store :=
  st.map fun t => if t.id = tid then f t else t

/-- Mode 2 loop body over the snapshot of selected rows, threading the
live store and the counters.  Branching uses the snapshot row `tx`,
updates target the live store by id, exactly as the source does. -/
def m2Fold (o : M2Oracles) : List Txn → Store → Nat → Nat → Store × Nat × Nat
  | [], st, s, f => (st, s, f)
  | tx :: rest, st, s, f =>
    let raw := tx.sender_name
    if raw = "" || raw.length < 10 then
      m2Fold o rest
        (match o.updErrF tx.id with
         | some _ => st
         | none => applyUpdate st tx.id fun t => { t with status := "failed" })
        s (f + 1)
    else
      match extractWithGemini (o.gem tx.id) with
      | none =>
        m2Fold o rest
          (match o.updErrF tx.id with
           | some _ => st
           | none => applyUpdate st tx.id fun t => { t with status := "failed" })
          s (f + 1)
      | some ext =>
        match o.updErr tx.id with
        | some _ => m2Fold o rest st s (f + 1)
        | none =>
          m2Fold o rest
            (applyUpdate st tx.id fun t =>
              { t with amount := ext.amount
                       sender_name := ext.sender_name
                       bank_source := ext.bank_source
                       status := "completed" })
            (s + 1) f

/-- Row selection of mode 2: `status = "new"` rows of the company. -/
def isNewOf (company : String) (t : Txn) : Bool :=
  t.company_id == company && t.status == "new"

/-- The `serve` handler of the dual-mode poller. -/
def handler (env : Env) (req : Req) (store : Store) (m1 : M1Data) (o : M2Oracles) :
    Resp × Store :=
  if !(jsTruthyStr env.GEMINI_API_KEY && jsTruthyStr env.SUPABASE_URL &&
       jsTruthyStr env.SUPABASE_SERVICE_ROLE_KEY) then
    (⟨500, RBody.errMsg "Missing required environment variables"⟩, store)
  else if !jsTruthyStr req.company_id then
    (⟨400, RBody.errMsg "company_id is required"⟩, store)
  else if jsTruthyStr req.access_token then
    if !m1.listOk then
      (⟨500, RBody.errMsg ("Gmail list error: " ++ Nat.repr m1.listStatus)⟩, store)
    else
      (⟨200, RBody.pollSummary m1.items.length
          (m1Fold (req.company_id.getD "") m1.items store 0 0).2.1
          (m1Fold (req.company_id.getD "") m1.items store 0 0).2.2⟩,
       (m1Fold (req.company_id.getD "") m1.items store 0 0).1)
  else
    match o.fetchErr with
    | some e => (⟨500, RBody.errMsg ("DB fetch error: " ++ e)⟩, store)
    | none =>
      (⟨200, RBody.pollSummary (store.filter (isNewOf (req.company_id.getD ""))).length
          (m2Fold o (store.filter (isNewOf (req.company_id.getD ""))) store 0 0).2.1
          (m2Fold o (store.filter (isNewOf (req.company_id.getD ""))) store 0 0).2.2⟩,
       (m2Fold o (store.filter (isNewOf (req.company_id.getD ""))) store 0 0).1)

end Poller

/-! ## Standalone gmail poller (`serve` handler of the older poller) -/

namespace OldPoller

/-- Environment variables the standalone poller reads. -/
structure Env where
  GMAIL_ACCESS_TOKEN : Option String
  GEMINI_API_KEY : Option String
  SUPABASE_URL : Option String
  SUPABASE_SERVICE_ROLE_KEY : Option String
deriving Repr, DecidableEq

/-- Oracles for one Gmail message: fetch outcome, Gemini outcome,
insert outcome and the id of the inserted row. -/
structure Item where
  newId : Nat
  fetchOk : Bool
  gem : GemResp
  insertErr : Option String
deriving Repr, DecidableEq

/-- Loop of the standalone poller: a message whose fetch, extraction or
insert fails is skipped (`continue`, no counter); an inserted row is
appended with `status = "new"` and pushed onto the results list.  The
raw `sender_name`/`bank_source` values are serialised into the text
columns; an absent `bank_source` is omitted from the payload, so the
column default applies. -/
def itemsFold (company : String) : List Item → Store → List Txn → Store × List Txn
  | [], st, res => (st, res.reverse)
  | it :: rest, st, res =>
    if !it.fetchOk then itemsFold company rest st res
    else
      match extractTransactionFromEmail it.gem with
      | none => itemsFold company rest st res
      | some txData =>
        match it.insertErr with
        | some _ => itemsFold company rest st res
        | none =>
          let row : Txn :=
            { id := it.newId
              company_id := company
              amount := (amountOf (some txData)).getD 0
              sender_name := jsToString ((Jval.getField txData "sender_name").getD Jval.jnull)
              bank_source :=
                match Jval.getField txData "bank_source" with
                | none => "Unknown"
                | some v => jsToString v
              status := "new"
              message_id := none }
          itemsFold company rest (st ++ [row]) (row :: res)

/-- The `serve` handler of the standalone poller. -/
def handler (env : Env) (company_id : Option String) (store : Store)
    (listOk : Bool) (listStatus : Nat) (items : List Item) : Resp × Store :=
  if !(jsTruthyStr env.GMAIL_ACCESS_TOKEN && jsTruthyStr env.GEMINI_API_KEY &&
       jsTruthyStr env.SUPABASE_URL && jsTruthyStr env.SUPABASE_SERVICE_ROLE_KEY) then
    (⟨500, RBody.errMsg "Missing required environment variables"⟩, store)
  else if !jsTruthyStr company_id then
    (⟨400, RBody.errMsg "company_id is required"⟩, store)
  else if !listOk then
    (⟨500, RBody.errMsg ("Gmail list API error: " ++ Nat.repr listStatus)⟩, store)
  else
    (⟨200, RBody.oldPollSummary items.length
        (itemsFold (company_id.getD "") items store []).2.length
        (itemsFold (company_id.getD "") items store []).2⟩,
     (itemsFold (company_id.getD "") items store []).1)

end OldPoller

/-- An item of mode 1 succeeds iff its fetch, extraction and insert
all succeed; everything else is counted as failed. -/
def Poller.m1succ (it : Poller.M1Item) : Bool :=
  it.fetchOk && (Poller.extractWithGemini it.gem).isSome && it.insertErr.isNone

/-- A mode 2 row succeeds iff its raw text is long enough, its
extraction returns a record and the completed-update does not error. -/
def Poller.m2succ (o : Poller.M2Oracles) (tx : Txn) : Bool :=
  !(tx.sender_name = "" || tx.sender_name.length < 10) &&
    (Poller.extractWithGemini (o.gem tx.id)).isSome && (o.updErr tx.id).isNone

/-- The net effect of mode 2 on one selected row: flip to failed when
the raw text is too short or the extraction returns nothing (provided
the ignored failed-update succeeds), overwrite the extracted fields and
flip to completed when extraction succeeds and the update succeeds,
leave the row untouched when the observed update errors. -/
def Poller.m2transform (o : Poller.M2Oracles) (tx : Txn) : Txn :=
  if tx.sender_name = "" || tx.sender_name.length < 10 then
    match o.updErrF tx.id with
    | some _ => tx
    | none => { tx with status := "failed" }
  else
    match Poller.extractWithGemini (o.gem tx.id) with
    | none =>
      match o.updErrF tx.id with
      | some _ => tx
      | none => { tx with status := "failed" }
    | some ext =>
      match o.updErr tx.id with
      | some _ => tx
      | none => { tx with amount := ext.amount, sender_name := ext.sender_name,
                          bank_source := ext.bank_source, status := "completed" }

/-! ## Lemmas about the extraction routines -/

theorem Webhook.extract_amount_pos (g : GemResp) (r : Extracted)
    (h : Webhook.extractWithGemini g = some r) : 0 < r.amount := by
  unfold Webhook.extractWithGemini at h
  split at h
  · exact absurd h (by simp)
  · split at h
    · exact absurd h (by simp)
    · split at h
      · exact absurd h (by simp)
      · split at h
        · split at h
          · rename_i q _ _ hcond
            simp only [Bool.and_eq_true, decide_eq_true_eq] at hcond
            cases h
            exact hcond.1.2
          · exact absurd h (by simp)
        · exact absurd h (by simp)

theorem Webhook.whExtract_none_of_not_ok (g : GemResp) (h : g.ok = false) :
    Webhook.extractWithGemini g = none := by
  unfold Webhook.extractWithGemini
  simp [h]

theorem Poller.plExtract_none_of_not_ok (g : GemResp) (h : g.ok = false) :
    Poller.extractWithGemini g = none := by
  unfold Poller.extractWithGemini
  simp [h]

theorem OldPoller.opExtract_none_of_not_ok (g : GemResp) (h : g.ok = false) :
    OldPoller.extractTransactionFromEmail g = none := by
  unfold OldPoller.extractTransactionFromEmail
  simp [h]

theorem Webhook.extract_none_of_null_text (g : GemResp)
    (h : jsTrim (g.text.getD "") = "null") : Webhook.extractWithGemini g = none := by
  unfold Webhook.extractWithGemini
  split
  · rfl
  · simp [h]

theorem Poller.extract_none_of_parse_fail (g : GemResp)
    (h : jsonParse (cleanFences (jsTrim (g.text.getD ""))) = none) :
    Poller.extractWithGemini g = none := by
  unfold Poller.extractWithGemini
  split
  · rfl
  · simp only [h]

theorem Webhook.whExtract_none_of_parse_fail (g : GemResp)
    (h : jsonParse (cleanFences (jsTrim (g.text.getD ""))) = none) :
    Webhook.extractWithGemini g = none := by
  unfold Webhook.extractWithGemini
  split
  · rfl
  · split
    · rfl
    · simp only [h]

theorem Webhook.whExtract_shape (g : GemResp) (r : Extracted)
    (h : Webhook.extractWithGemini g = some r) :
    ∃ j, jsonParse (cleanFences (jsTrim (g.text.getD ""))) = some j ∧
      jsTruthy (some j) = true ∧
      Jval.getField j "amount" = some (Jval.jnum r.amount) ∧
      0 < r.amount ∧
      jsTruthy (Jval.getField j "sender_name") = true ∧
      r.sender_name = jsToString ((Jval.getField j "sender_name").getD Jval.jnull) ∧
      r.bank_source = jsToString (coalesceJs (Jval.getField j "bank_source") (Jval.jstr "Unknown")) := by
  unfold Webhook.extractWithGemini at h
  split at h
  · exact absurd h (by simp)
  · split at h
    · exact absurd h (by simp)
    · split at h
      · exact absurd h (by simp)
      · rename_i parsed heq
        split at h
        · rename_i q hq
          split at h
          · rename_i hcond
            simp only [Bool.and_eq_true, decide_eq_true_eq] at hcond
            cases h
            exact ⟨parsed, heq, hcond.1.1, hq, hcond.1.2, hcond.2, rfl, rfl⟩
          · exact absurd h (by simp)
        · exact absurd h (by simp)

theorem Webhook.whExtract_none_of_invalid (g : GemResp) (j : Jval)
    (hp : jsonParse (cleanFences (jsTrim (g.text.getD ""))) = some j)
    (hv : Webhook.validExtraction j = false) :
    Webhook.extractWithGemini g = none := by
  cases hr : Webhook.extractWithGemini g with
  | none => rfl
  | some r =>
    exfalso
    obtain ⟨j', hpj, htr, hq, hpos, hsn, _, _⟩ := Webhook.whExtract_shape g r hr
    rw [hp] at hpj
    injection hpj with hji
    subst hji
    have hvt : Webhook.validExtraction j = true := by
      unfold Webhook.validExtraction
      rw [hq]
      simp [htr, hsn, hpos]
    rw [hvt] at hv
    exact absurd hv (by simp)

theorem Poller.plExtract_shape (g : GemResp) (r : Extracted)
    (h : Poller.extractWithGemini g = some r) :
    ∃ j, jsonParse (cleanFences (jsTrim (g.text.getD ""))) = some j ∧
      Jval.getField j "amount" = some (Jval.jnum r.amount) ∧
      jsTruthy (Jval.getField j "sender_name") = true ∧
      r.bank_source = jsToString (coalesceJs (Jval.getField j "bank_source") (Jval.jstr "Unknown")) := by
  unfold Poller.extractWithGemini at h
  split at h
  · exact absurd h (by simp)
  · split at h
    · exact absurd h (by simp)
    · rename_i parsed heq
      split at h
      · split at h
        · rename_i q hq hcond
          simp only [Bool.and_eq_true] at hcond
          cases h
          exact ⟨parsed, heq, hq, hcond.2, rfl⟩
        · exact absurd h (by simp)
      · exact absurd h (by simp)

theorem OldPoller.opExtract_shape (g : GemResp) (j : Jval)
    (h : OldPoller.extractTransactionFromEmail g = some j) :
    (∃ t, g.text = some t ∧ jsonParse (jsTrim t) = some j) ∧
      (∃ q, Jval.getField j "amount" = some (Jval.jnum q)) ∧
      jsTruthy (Jval.getField j "sender_name") = true := by
  unfold OldPoller.extractTransactionFromEmail at h
  split at h
  · exact absurd h (by simp)
  · split at h
    · exact absurd h (by simp)
    · rename_i t ht
      split at h
      · exact absurd h (by simp)
      · split at h
        · exact absurd h (by simp)
        · rename_i parsed heq
          split at h
          · split at h
            · rename_i q hq hcond
              simp only [Bool.and_eq_true] at hcond
              cases h
              exact ⟨⟨t, ht, heq⟩, ⟨q, hq⟩, hcond.2⟩
            · exact absurd h (by simp)
          · exact absurd h (by simp)

/-- C1: Every extraction routine returns an `Option` result: the claim
states that a non-null result always requires `amount > 0`, a non-empty
`sender_name`, and a `bank_source` defaulted to "Unknown" when absent,
and that every parse failure, non-2xx model call, literal null or failed
validation yields null.  As amended: the null cases (non-2xx, literal
null, parse failure, failed validation) hold, and the webhook routine's
non-null result is exactly the validated coercion of the parsed reply —
positive numeric amount, truthy sender, `bank_source` defaulted to
Unknown; the dual-mode poller routine demands no positivity (any JSON
number passes), and the standalone poller returns the parsed object of
its input text as-is, with no `bank_source` defaulting. -/
theorem claim_C1_extraction_validation :
    (∀ g r, Webhook.extractWithGemini g = some r → 0 < r.amount) ∧
    (∀ g, g.ok = false →
      Webhook.extractWithGemini g = none ∧ Poller.extractWithGemini g = none ∧
      OldPoller.extractTransactionFromEmail g = none) ∧
    (∀ g, jsTrim (g.text.getD "") = "null" → Webhook.extractWithGemini g = none) ∧
    (∀ g, jsonParse (cleanFences (jsTrim (g.text.getD ""))) = none →
      Webhook.extractWithGemini g = none ∧ Poller.extractWithGemini g = none) ∧
    (∀ g j, jsonParse (cleanFences (jsTrim (g.text.getD ""))) = some j →
      Webhook.validExtraction j = false → Webhook.extractWithGemini g = none) ∧
    (∀ g r, Webhook.extractWithGemini g = some r →
      ∃ j, jsonParse (cleanFences (jsTrim (g.text.getD ""))) = some j ∧
        jsTruthy (some j) = true ∧
        Jval.getField j "amount" = some (Jval.jnum r.amount) ∧
        0 < r.amount ∧
        jsTruthy (Jval.getField j "sender_name") = true ∧
        r.sender_name = jsToString ((Jval.getField j "sender_name").getD Jval.jnull) ∧
        r.bank_source = jsToString (coalesceJs (Jval.getField j "bank_source") (Jval.jstr "Unknown"))) ∧
    (∀ g r, Poller.extractWithGemini g = some r →
      ∃ j, jsonParse (cleanFences (jsTrim (g.text.getD ""))) = some j ∧
        Jval.getField j "amount" = some (Jval.jnum r.amount) ∧
        jsTruthy (Jval.getField j "sender_name") = true ∧
        r.bank_source = jsToString (coalesceJs (Jval.getField j "bank_source") (Jval.jstr "Unknown"))) ∧
    (∀ g j, OldPoller.extractTransactionFromEmail g = some j →
      (∃ t, g.text = some t ∧ jsonParse (jsTrim t) = some j) ∧
        (∃ q, Jval.getField j "amount" = some (Jval.jnum q)) ∧
        jsTruthy (Jval.getField j "sender_name") = true) :=
  ⟨Webhook.extract_amount_pos,
   fun g h => ⟨Webhook.whExtract_none_of_not_ok g h, Poller.plExtract_none_of_not_ok g h,
     OldPoller.opExtract_none_of_not_ok g h⟩,
   Webhook.extract_none_of_null_text,
   fun g h => ⟨Webhook.whExtract_none_of_parse_fail g h, Poller.extract_none_of_parse_fail g h⟩,
   Webhook.whExtract_none_of_invalid,
   Webhook.whExtract_shape,
   Poller.plExtract_shape,
   OldPoller.opExtract_shape⟩

/-- C1 counterexample: the dual-mode poller's extraction returns a
non-null record whose amount is 0 (not strictly positive), and the
standalone poller's non-null result carries no `bank_source` at all
(no "Unknown" defaulting). -/
theorem claim_C1_counterexample :
    Poller.extractWithGemini ⟨true, some "\x7b\"amount\": 0, \"sender_name\": \"John Doe\"\x7d"⟩ =
        some ⟨0, "John Doe", "Unknown"⟩ ∧
      (OldPoller.extractTransactionFromEmail
          ⟨true, some "\x7b\"amount\": 5, \"sender_name\": \"J S\"\x7d"⟩).isSome = true ∧
      (bankSourceOf (OldPoller.extractTransactionFromEmail
          ⟨true, some "\x7b\"amount\": 5, \"sender_name\": \"J S\"\x7d"⟩)).isNone = true :=
  ⟨by with_unfolding_all rfl, by with_unfolding_all rfl, by with_unfolding_all rfl⟩

/-- C1 witness: the theorem applied at a successful webhook extraction. -/
theorem claim_C1_witness :
    0 < (Extracted.mk 5000 "John Doe" "GTBank").amount :=
  claim_C1_extraction_validation.1
    ⟨true, some "\x7b\"amount\": 5000, \"sender_name\": \"John Doe\", \"bank_source\": \"GTBank\"\x7d"⟩
    ⟨5000, "John Doe", "GTBank"⟩ (by with_unfolding_all rfl)

/-! ## Lemmas about the sender verification filter -/

theorem mem_of_mem_takeWhile {p : Char → Bool} :
    ∀ {l : List Char} {x : Char}, x ∈ l.takeWhile p → x ∈ l := by
  intro l
  induction l with
  | nil => intro x hx; simp [List.takeWhile] at hx
  | cons c rest ih =>
    intro x hx
    rw [List.takeWhile] at hx
    by_cases hc : p c
    · rw [hc] at hx
      rcases List.mem_cons.mp hx with h | h
      · exact h ▸ List.mem_cons_self _ _
      · exact List.mem_cons_of_mem _ (ih h)
    · rw [Bool.not_eq_true] at hc
      rw [hc] at hx
      simp at hx

theorem matchAngle_mem :
    ∀ {l cap : List Char}, matchAngle l = some cap → ∀ x ∈ cap, x ∈ l := by
  intro l
  induction l with
  | nil => intro cap h; simp [matchAngle] at h
  | cons c rest ih =>
    intro cap h x hx
    rw [matchAngle.eq_def] at h
    revert h
    split
    · intro h; exact absurd h (by simp)
    · rename_i rest' heq
      cases heq
      intro h
      split at h
      · cases h
        exact List.mem_cons_of_mem _ (mem_of_mem_takeWhile hx)
      · exact List.mem_cons_of_mem _ (ih h x hx)
    · rename_i c' rest' heq
      cases heq
      intro h
      exact List.mem_cons_of_mem _ (ih h x hx)

theorem matchBare_mem :
    ∀ {l cap : List Char}, matchBare l = some cap → ∀ x ∈ cap, x ∈ l := by
  intro l
  induction l with
  | nil => intro cap h; simp [matchBare] at h
  | cons c rest ih =>
    intro cap h x hx
    rw [matchBare.eq_def] at h
    split at h
    · exact absurd h (by simp)
    · rename_i c' rest' heq
      cases heq
      split at h
      · exact List.mem_cons_of_mem _ (ih h x hx)
      · split at h
        · cases h
          rcases List.mem_cons.mp hx with h' | h'
          · exact h' ▸ List.mem_cons_self _ _
          · exact List.mem_cons_of_mem _ (mem_of_mem_takeWhile h')
        · exact List.mem_cons_of_mem _ (ih h x hx)

theorem splitOnAt_no_at : ∀ {l : List Char}, '@' ∉ l → splitOnAt l = [l] := by
  intro l
  induction l with
  | nil => intro _; rfl
  | cons c rest ih =>
    intro h
    have hc : ¬ c = '@' := by rintro rfl; exact h (List.mem_cons_self _ _)
    have hr : '@' ∉ rest := fun hx => h (List.mem_cons_of_mem _ hx)
    rw [splitOnAt.eq_def]
    simp only [if_neg hc]
    rw [ih hr]

theorem domainOf_eq_empty_of_no_at (s : String) (h : '@' ∉ s.data) : domainOf s = "" := by
  have hmail : '@' ∉ (extractedEmail s).data := by
    unfold extractedEmail
    split
    · rename_i cap hcap
      intro hx
      exact h (matchAngle_mem hcap '@' hx)
    · split
      · rename_i cap hcap
        intro hx
        exact h (matchBare_mem hcap '@' hx)
      · exact h
  unfold domainOf
  rw [splitOnAt_no_at hmail]
  rfl

theorem isAllowedDomain_of_empty (s : String) (h : domainOf s = "") :
    isAllowedDomain s = false := by
  unfold isAllowedDomain
  simp only [h]
  decide

/-- C2: the sender filter claim.  The claim states the filter lower-cases
the domain after the at-sign of the address extracted by the
angle-bracket or bare-address pattern, accepts exactly the allow-listed
domains and their dot-subdomains, and that every header with no
extractable address resolves to the empty domain and is rejected.  As
amended: when neither pattern matches, the raw header itself is used as
the address, so only headers containing no at-sign at all are guaranteed
the empty-domain rejection; acceptance is still exactly "domain equals
or dot-ends-with an allow-listed domain" of `domainOf` (fail-closed). -/
theorem claim_C2_sender_filter :
    (∀ s, isAllowedDomain s = true →
      ∃ a ∈ ALLOWED_BANK_DOMAINS, domainOf s = a ∨ jsEndsWith (domainOf s) ("." ++ a) = true) ∧
    (∀ s a, a ∈ ALLOWED_BANK_DOMAINS →
      (domainOf s = a ∨ jsEndsWith (domainOf s) ("." ++ a) = true) → isAllowedDomain s = true) ∧
    (∀ s, '@' ∉ s.data → isAllowedDomain s = false) ∧
    (∀ s, domainOf s = "" → isAllowedDomain s = false) := by
  refine ⟨?_, ?_, ?_, isAllowedDomain_of_empty⟩
  · intro s h
    unfold isAllowedDomain at h
    simp only [List.any_eq_true, Bool.or_eq_true, beq_iff_eq] at h
    obtain ⟨a, ha, hcase⟩ := h
    exact ⟨a, ha, hcase⟩
  · intro s a ha hcase
    unfold isAllowedDomain
    simp only [List.any_eq_true, Bool.or_eq_true, beq_iff_eq]
    exact ⟨a, ha, hcase⟩
  · intro s h
    exact isAllowedDomain_of_empty s (domainOf_eq_empty_of_no_at s h)

/-- C2 counterexample: the header has no extractable address — neither
the angle-bracket nor the bare-address pattern matches — yet the filter
falls back to the raw header, resolves the non-empty domain
"gtbank.com" after its at-sign, and accepts, contradicting the claimed
"no extractable address implies empty domain and rejection". -/
theorem claim_C2_counterexample :
    matchAngle ("a @gtbank.com".data) = none ∧
      matchBare ("a @gtbank.com".data) = none ∧
      domainOf "a @gtbank.com" = "gtbank.com" ∧
      isAllowedDomain "a @gtbank.com" = true :=
  ⟨by decide, by decide, by decide, by decide⟩

/-- C2 witness: the theorem applied at a concrete accepted header and a
concrete at-sign-free rejected header. -/
theorem claim_C2_witness :
    (∃ a ∈ ALLOWED_BANK_DOMAINS,
      domainOf "GTBank <alerts@gtbank.com>" = a ∨
        jsEndsWith (domainOf "GTBank <alerts@gtbank.com>") ("." ++ a) = true) ∧
    isAllowedDomain "no-address-here" = false :=
  ⟨claim_C2_sender_filter.1 "GTBank <alerts@gtbank.com>" (by decide),
   claim_C2_sender_filter.2.2.1 "no-address-here" (by decide)⟩

/-! ## Claims about the webhook handler -/

/-- C3: the deduplication gate.  The claim states a request carrying a
`message_id` with an existing transaction short-circuits to
200 duplicate with no write, and a request without one always proceeds
with no dedup lookup.  As amended: this holds for requests that pass
the secret, company-id and sender-domain gates, carry a truthy
(non-empty) `message_id`, and whose id matches exactly one stored
transaction — `maybeSingle` yields a row only then.  An empty-string
`message_id` is treated like an absent one (no lookup: the response
does not depend on the store), and when the id matches zero rows or
two or more rows (`maybeSingle` then reports an error the code
ignores, with null data) the request is never answered as a duplicate
and proceeds to extraction and insert.  Requests failing an earlier
gate answer with that gate's outcome instead. -/
theorem claim_C3_dedup_gate (env : Webhook.Env) (req : Webhook.Req) (gem : GemResp)
    (insertErr : Option String) (newId : Nat)
    (henv : (jsTruthyStr env.GEMINI_API_KEY && jsTruthyStr env.SUPABASE_URL &&
      jsTruthyStr env.ANON_KEY) = true)
    (hsec : (jsTruthyStr env.WEBHOOK_SECRET && req.secretHeader != env.WEBHOOK_SECRET) = false)
    (hcomp : jsTruthyStr req.company_id = true)
    (hdom : isAllowedDomain (req.sender.getD "") = true) :
    (∀ store, jsTruthyStr req.message_id = true →
      store.countP (fun t => t.message_id == req.message_id) = 1 →
      Webhook.handler env req store gem insertErr newId = (⟨200, RBody.skippedDuplicate⟩, store)) ∧
    (∀ store₁ store₂, jsTruthyStr req.message_id = false →
      (Webhook.handler env req store₁ gem insertErr newId).1 =
        (Webhook.handler env req store₂ gem insertErr newId).1) ∧
    (∀ store, jsTruthyStr req.message_id = true →
      store.countP (fun t => t.message_id == req.message_id) ≠ 1 →
      (Webhook.handler env req store gem insertErr newId).1.body ≠ RBody.skippedDuplicate) := by
  refine ⟨?_, ?_, ?_⟩
  · intro store hmid hdup
    unfold Webhook.handler
    simp [henv, hsec, hcomp, hdom, hmid, hdup]
  · intro store₁ store₂ hmid
    unfold Webhook.handler
    simp only [henv, hsec, hcomp, hdom, hmid, Bool.not_true, Bool.false_and,
      Bool.false_eq_true, if_false, ite_false, Bool.not_false, if_true, ite_true,
      Bool.and_self]
    cases hext : Webhook.extractWithGemini gem with
    | none => simp [hext]
    | some ext =>
      cases insertErr with
      | none => simp [hext]
      | some e => simp [hext]
  · intro store hmid hcnt
    have hc : (store.countP (fun t => t.message_id == req.message_id) == 1) = false :=
      beq_eq_false_iff_ne.mpr hcnt
    unfold Webhook.handler
    simp only [henv, hsec, hcomp, hdom, hmid, hc, Bool.not_true, Bool.and_false,
      Bool.false_eq_true, if_false, ite_false, Bool.not_false, if_true, ite_true,
      Bool.true_and]
    cases hext : Webhook.extractWithGemini gem with
    | none => simp [hext]
    | some ext =>
      cases insertErr with
      | none => simp [hext]
      | some e => simp [hext]

/-- C3 counterexample: (1) a request carrying the empty-string
`message_id` while the store already holds a transaction with that very
`message_id` is not short-circuited — it is processed and inserted
(claim said: respond duplicate, no write); (2) a request carrying a
non-empty `message_id` already stored on two transactions is also
processed and a third copy inserted, because the ignored `maybeSingle`
error leaves `existing` null; (3) a duplicate-`message_id` request from
a non-allow-listed sender answers with the domain rejection, not the
duplicate response. -/
theorem claim_C3_counterexample :
    Webhook.handler ⟨some "g", some "u", some "a", none⟩
        ⟨none, some "alerts@gtbank.com", some "Credit", some "you got money", none,
          some "c1", some ""⟩
        [⟨1, "c1", 5, "X", "B", "completed", some ""⟩]
        ⟨true, some "\x7b\"amount\": 5000, \"sender_name\": \"John Doe\"\x7d"⟩ none 2 =
      (⟨200, RBody.webhookOk 5000 "John Doe"⟩,
       [⟨1, "c1", 5, "X", "B", "completed", some ""⟩,
        ⟨2, "c1", 5000, "John Doe", "Unknown", "completed", some ""⟩]) ∧
    Webhook.handler ⟨some "g", some "u", some "a", none⟩
        ⟨none, some "alerts@gtbank.com", some "Credit", some "you got money", none,
          some "c1", some "m2"⟩
        [⟨1, "c1", 5, "X", "B", "completed", some "m2"⟩,
         ⟨2, "c1", 6, "Y", "B", "completed", some "m2"⟩]
        ⟨true, some "\x7b\"amount\": 5000, \"sender_name\": \"John Doe\"\x7d"⟩ none 3 =
      (⟨200, RBody.webhookOk 5000 "John Doe"⟩,
       [⟨1, "c1", 5, "X", "B", "completed", some "m2"⟩,
        ⟨2, "c1", 6, "Y", "B", "completed", some "m2"⟩,
        ⟨3, "c1", 5000, "John Doe", "Unknown", "completed", some "m2"⟩]) ∧
    Webhook.handler ⟨some "g", some "u", some "a", none⟩
        ⟨none, some "noreply@facebook.com", some "hi", some "text", none,
          some "c1", some "m1"⟩
        [⟨1, "c1", 5, "X", "B", "completed", some "m1"⟩]
        ⟨true, some "\x7b\"amount\": 5000, \"sender_name\": \"John Doe\"\x7d"⟩ none 2 =
      (⟨200, RBody.skippedDomain (some "noreply@facebook.com")⟩,
       [⟨1, "c1", 5, "X", "B", "completed", some "m1"⟩]) :=
  ⟨by with_unfolding_all rfl, by with_unfolding_all rfl, by with_unfolding_all rfl⟩

/-- C3 witness: the theorem applied at a concrete duplicate request
with exactly one matching stored transaction. -/
theorem claim_C3_witness :
    Webhook.handler ⟨some "g", some "u", some "a", none⟩
        ⟨none, some "alerts@gtbank.com", some "Credit", some "body", none, some "c1", some "m1"⟩
        [⟨1, "c1", 5, "X", "B", "completed", some "m1"⟩] ⟨false, none⟩ none 2 =
      (⟨200, RBody.skippedDuplicate⟩, [⟨1, "c1", 5, "X", "B", "completed", some "m1"⟩]) :=
  (claim_C3_dedup_gate _ _ _ _ _ (by decide) (by decide) (by decide) (by decide)).1
    _ (by decide) (by decide)

/-- C4: the claim states the storage schema enforces uniqueness of
`message_id` so that a concurrent duplicate insert is rejected by a
constraint.  The code is wrong: the webhook writes a `message_id`
column, but the migrations declare `public.transactions` without any
`message_id` column and with the primary key as the only uniqueness
constraint, so nothing at the storage layer deduplicates. -/
theorem claim_C4_no_message_id_constraint :
    "message_id" ∈ Webhook.insertColumns ∧
      "message_id" ∉ Schema.transactionsColumns ∧
      ["message_id"] ∉ Schema.transactionsUniqueConstraints := by
  refine ⟨by decide, by decide, by decide⟩

/-- C5: the shared-secret gate.  The claim states a mismatching
`x-webhook-secret` yields 401 with no write, and a missing required
secret/credential yields 500.  As amended: the 401 holds whenever a
non-empty `WEBHOOK_SECRET` is configured, and the 500 covers exactly
`GEMINI_API_KEY`/`SUPABASE_URL`/`ANON_KEY`; an unset `WEBHOOK_SECRET`
is not part of the required-environment check — the secret comparison
is skipped entirely and the request is processed (fail-open). -/
theorem claim_C5_secret_gate :
    (∀ (env : Webhook.Env) (req : Webhook.Req) store gem insertErr newId s,
      (jsTruthyStr env.GEMINI_API_KEY && jsTruthyStr env.SUPABASE_URL &&
        jsTruthyStr env.ANON_KEY) = true →
      env.WEBHOOK_SECRET = some s → s ≠ "" → req.secretHeader ≠ some s →
      Webhook.handler env req store gem insertErr newId =
        (⟨401, RBody.errMsg "Unauthorized"⟩, store)) ∧
    (∀ (env : Webhook.Env) (req : Webhook.Req) store gem insertErr newId,
      (jsTruthyStr env.GEMINI_API_KEY && jsTruthyStr env.SUPABASE_URL &&
        jsTruthyStr env.ANON_KEY) = false →
      Webhook.handler env req store gem insertErr newId =
        (⟨500, RBody.errMsg "Missing environment variables"⟩, store)) := by
  constructor
  · intro env req store gem insertErr newId s henv hset hs hne
    unfold Webhook.handler
    have h1 : jsTruthyStr env.WEBHOOK_SECRET = true := by
      rw [hset]; simpa [jsTruthyStr] using hs
    have h2 : (req.secretHeader != env.WEBHOOK_SECRET) = true := by
      rw [hset]; simpa using hne
    simp [henv, h1, h2]
  · intro env req store gem insertErr newId henv
    unfold Webhook.handler
    simp [henv]

/-- C5 counterexample: with `WEBHOOK_SECRET` unset and the remaining
environment present, a request with an arbitrary wrong secret header is
neither rejected with 401 nor failed with 500 — it is fully processed
and a row is written. -/
theorem claim_C5_counterexample :
    Webhook.handler ⟨some "g", some "u", some "a", none⟩
        ⟨some "totally-wrong-secret", some "alerts@gtbank.com", some "Credit",
          some "you received money", none, some "c1", none⟩
        []
        ⟨true, some "\x7b\"amount\": 250, \"sender_name\": \"Ada O\", \"bank_source\": \"GTBank\"\x7d"⟩
        none 1 =
      (⟨200, RBody.webhookOk 250 "Ada O"⟩,
       [⟨1, "c1", 250, "Ada O", "GTBank", "completed", none⟩]) := by
  with_unfolding_all rfl

/-- C5 witness: the theorem applied at a concrete mismatching secret and
at a concrete missing-environment configuration. -/
theorem claim_C5_witness :
    Webhook.handler ⟨some "g", some "u", some "a", some "s3cret"⟩
        ⟨some "wrong", none, none, none, none, some "c1", none⟩ [] ⟨false, none⟩ none 1 =
      (⟨401, RBody.errMsg "Unauthorized"⟩, []) ∧
    Webhook.handler ⟨none, some "u", some "a", some "s3cret"⟩
        ⟨some "s3cret", none, none, none, none, some "c1", none⟩ [] ⟨false, none⟩ none 1 =
      (⟨500, RBody.errMsg "Missing environment variables"⟩, []) :=
  ⟨claim_C5_secret_gate.1 _ _ _ _ _ _ "s3cret" (by decide) rfl (by decide) (by decide),
   claim_C5_secret_gate.2 _ _ _ _ _ _ (by decide)⟩

/-- C6: the claim states every transaction reaching status completed has
`amount > 0` on every code path.  As amended: the webhook path
guarantees it — every row it adds is completed with positive amount —
but the poll-mode paths do not enforce positivity (see the
counterexample, a completed insert with amount 0). -/
theorem claim_C6_completed_amount_pos (env : Webhook.Env) (req : Webhook.Req)
    (store : Store) (gem : GemResp) (insertErr : Option String) (newId : Nat) :
    ∀ t ∈ (Webhook.handler env req store gem insertErr newId).2,
      t ∈ store ∨ (t.status = "completed" ∧ 0 < t.amount) := by
  intro t ht
  unfold Webhook.handler at ht
  split at ht
  · exact Or.inl ht
  · split at ht
    · exact Or.inl ht
    · split at ht
      · exact Or.inl ht
      · split at ht
        · exact Or.inl ht
        · split at ht
          · exact Or.inl ht
          · split at ht
            · exact Or.inl ht
            · rename_i ext hext
              split at ht
              · exact Or.inl ht
              · rcases List.mem_append.mp ht with h | h
                · exact Or.inl h
                · rcases List.mem_singleton.mp h with rfl
                  exact Or.inr ⟨rfl, Webhook.extract_amount_pos gem ext hext⟩

/-- C6 counterexample: a poll-mode (gmail-fetch) run inserts a
transaction with `status = "completed"` and `amount = 0`. -/
theorem claim_C6_counterexample :
    Poller.handler ⟨some "g", some "u", some "k"⟩ ⟨some "c1", some "tok"⟩ []
        ⟨true, 200, [⟨1, true, ⟨true, some "\x7b\"amount\": 0, \"sender_name\": \"John Doe\"\x7d"⟩, none⟩]⟩
        ⟨fun _ => ⟨false, none⟩, fun _ => none, fun _ => none, none⟩ =
      (⟨200, RBody.pollSummary 1 1 0⟩,
       [⟨1, "c1", 0, "John Doe", "Unknown", "completed", none⟩]) := by
  with_unfolding_all rfl

/-- C6 witness: the theorem applied at a concrete successful webhook
insert, whose new row is completed with positive amount. -/
theorem claim_C6_witness :
    (⟨1, "c1", 250, "Ada O", "GTBank", "completed", none⟩ : Txn) ∈
        ([] : Store) ∨
      ((⟨1, "c1", 250, "Ada O", "GTBank", "completed", none⟩ : Txn).status = "completed" ∧
        0 < (⟨1, "c1", 250, "Ada O", "GTBank", "completed", none⟩ : Txn).amount) :=
  claim_C6_completed_amount_pos ⟨some "g", some "u", some "a", none⟩
    ⟨none, some "alerts@gtbank.com", some "Credit", some "you received money", none,
      some "c1", none⟩
    []
    ⟨true, some "\x7b\"amount\": 250, \"sender_name\": \"Ada O\", \"bank_source\": \"GTBank\"\x7d"⟩
    none 1 _ (by with_unfolding_all exact List.Mem.head _)

/-! ## Lemmas about the poller loops -/

theorem countP_split {α : Type} (p : α → Bool) (l : List α) :
    l.countP p + l.countP (fun a => !(p a)) = l.length := by
  induction l with
  | nil => simp
  | cons a l ih => by_cases h : p a <;> simp [List.countP_cons, h] <;> omega

theorem Poller.m1Fold_counts (company : String) :
    ∀ (items : List Poller.M1Item) (st : Store) (s f : Nat),
      (Poller.m1Fold company items st s f).2.1 = s + items.countP Poller.m1succ ∧
      (Poller.m1Fold company items st s f).2.2 =
        f + items.countP (fun it => !(Poller.m1succ it)) := by
  intro items
  induction items with
  | nil => intro st s f; simp [Poller.m1Fold]
  | cons it rest ih =>
    intro st s f
    by_cases hf : it.fetchOk
    · cases hext : Poller.extractWithGemini it.gem with
      | none =>
        have hm : Poller.m1succ it = false := by simp [Poller.m1succ, hf, hext]
        simp only [Poller.m1Fold, hf, hext, Bool.not_true, Bool.false_eq_true, if_false]
        refine ⟨?_, ?_⟩
        · rw [(ih _ _ _).1]; simp [List.countP_cons, hm]
        · rw [(ih _ _ _).2]; simp [List.countP_cons, hm]; omega
      | some ext =>
        cases hins : it.insertErr with
        | none =>
          have hm : Poller.m1succ it = true := by simp [Poller.m1succ, hf, hext, hins]
          simp only [Poller.m1Fold, hf, hext, hins, Bool.not_true, Bool.false_eq_true, if_false]
          refine ⟨?_, ?_⟩
          · rw [(ih _ _ _).1]; simp [List.countP_cons, hm]; omega
          · rw [(ih _ _ _).2]; simp [List.countP_cons, hm]
        | some e =>
          have hm : Poller.m1succ it = false := by simp [Poller.m1succ, hf, hext, hins]
          simp only [Poller.m1Fold, hf, hext, hins, Bool.not_true, Bool.false_eq_true, if_false]
          refine ⟨?_, ?_⟩
          · rw [(ih _ _ _).1]; simp [List.countP_cons, hm]
          · rw [(ih _ _ _).2]; simp [List.countP_cons, hm]; omega
    · have hf' : it.fetchOk = false := by simpa using hf
      have hm : Poller.m1succ it = false := by simp [Poller.m1succ, hf']
      simp only [Poller.m1Fold, hf', Bool.not_false, if_true]
      refine ⟨?_, ?_⟩
      · rw [(ih _ _ _).1]; simp [List.countP_cons, hm]
      · rw [(ih _ _ _).2]; simp [List.countP_cons, hm]; omega

theorem Poller.m1Fold_store (company : String) :
    ∀ (items : List Poller.M1Item) (st : Store) (s f : Nat),
      ∀ t ∈ (Poller.m1Fold company items st s f).1,
        t ∈ st ∨ (t.status = "completed" ∧ t.message_id = none) := by
  intro items
  induction items with
  | nil => intro st s f t ht; exact Or.inl ht
  | cons it rest ih =>
    intro st s f t ht
    by_cases hf : it.fetchOk
    · cases hext : Poller.extractWithGemini it.gem with
      | none =>
        simp only [Poller.m1Fold, hf, hext, Bool.not_true, Bool.false_eq_true, if_false] at ht
        exact ih st s (f + 1) t ht
      | some ext =>
        cases hins : it.insertErr with
        | none =>
          simp only [Poller.m1Fold, hf, hext, hins, Bool.not_true, Bool.false_eq_true,
            if_false] at ht
          rcases ih _ (s + 1) f t ht with h | h
          · rcases List.mem_append.mp h with h' | h'
            · exact Or.inl h'
            · rcases List.mem_singleton.mp h' with rfl
              exact Or.inr ⟨rfl, rfl⟩
          · exact Or.inr h
        | some e =>
          simp only [Poller.m1Fold, hf, hext, hins, Bool.not_true, Bool.false_eq_true,
            if_false] at ht
          exact ih st s (f + 1) t ht
    · have hf' : it.fetchOk = false := by simpa using hf
      simp only [Poller.m1Fold, hf', Bool.not_false, if_true] at ht
      exact ih st s (f + 1) t ht

theorem Poller.m2Fold_counts (o : Poller.M2Oracles) :
    ∀ (txs : List Txn) (st : Store) (s f : Nat),
      (Poller.m2Fold o txs st s f).2.1 = s + txs.countP (Poller.m2succ o) ∧
      (Poller.m2Fold o txs st s f).2.2 =
        f + txs.countP (fun tx => !(Poller.m2succ o tx)) := by
  intro txs
  induction txs with
  | nil => intro st s f; simp [Poller.m2Fold]
  | cons tx rest ih =>
    intro st s f
    by_cases hshort : (tx.sender_name = "" || tx.sender_name.length < 10 : Bool) = true
    · have hm : Poller.m2succ o tx = false := by simp only [Poller.m2succ, hshort]; rfl
      simp only [Poller.m2Fold, hshort, if_true]
      refine ⟨?_, ?_⟩
      · rw [(ih _ _ _).1]; simp [List.countP_cons, hm]
      · rw [(ih _ _ _).2]; simp [List.countP_cons, hm]; omega
    · have hshort' : (tx.sender_name = "" || tx.sender_name.length < 10 : Bool) = false := by
        simpa using hshort
      cases hext : Poller.extractWithGemini (o.gem tx.id) with
      | none =>
        have hm : Poller.m2succ o tx = false := by simp [Poller.m2succ, hext]
        simp only [Poller.m2Fold, hshort', Bool.false_eq_true, if_false, hext]
        refine ⟨?_, ?_⟩
        · rw [(ih _ _ _).1]; simp [List.countP_cons, hm]
        · rw [(ih _ _ _).2]; simp [List.countP_cons, hm]; omega
      | some ext =>
        cases hupd : o.updErr tx.id with
        | none =>
          have hm : Poller.m2succ o tx = true := by
            simp [Poller.m2succ, hshort', hext, hupd]
          simp only [Poller.m2Fold, hshort', Bool.false_eq_true, if_false, hext, hupd]
          refine ⟨?_, ?_⟩
          · rw [(ih _ _ _).1]; simp [List.countP_cons, hm]; omega
          · rw [(ih _ _ _).2]; simp [List.countP_cons, hm]
        | some e =>
          have hm : Poller.m2succ o tx = false := by simp [Poller.m2succ, hext, hupd]
          simp only [Poller.m2Fold, hshort', Bool.false_eq_true, if_false, hext, hupd]
          refine ⟨?_, ?_⟩
          · rw [(ih _ _ _).1]; simp [List.countP_cons, hm]
          · rw [(ih _ _ _).2]; simp [List.countP_cons, hm]; omega

theorem Poller.m2transform_id (o : Poller.M2Oracles) (tx : Txn) :
    (Poller.m2transform o tx).id = tx.id := by
  unfold Poller.m2transform
  split
  · split <;> rfl
  · split
    · split <;> rfl
    · split <;> rfl

theorem Poller.m2transform_msgid (o : Poller.M2Oracles) (tx : Txn) :
    (Poller.m2transform o tx).message_id = tx.message_id := by
  unfold Poller.m2transform
  split
  · split <;> rfl
  · split
    · split <;> rfl
    · split <;> rfl

theorem Poller.applyUpdate_eq_map (st : Store) (tid : Nat) (g : Txn → Txn) :
    Poller.applyUpdate st tid g = st.map (fun t => if t.id = tid then g t else t) := rfl

/-- Sequential mode 2 equals a pointwise map: under unique row ids and
the snapshot invariant (any stored row sharing an id with a snapshot
row is that row), the loop's net store is `m2transform` applied to
exactly the rows whose id appears in the snapshot. -/
theorem Poller.m2Fold_store_eq (o : Poller.M2Oracles) :
    ∀ (txs : List Txn) (st : Store) (s f : Nat),
      (∀ tx ∈ txs, ∀ t ∈ st, t.id = tx.id → t = tx) →
      (txs.map Txn.id).Nodup →
      (Poller.m2Fold o txs st s f).1 =
        st.map (fun t => if txs.any (fun tx => tx.id == t.id) then Poller.m2transform o t else t) := by
  intro txs
  induction txs with
  | nil =>
    intro st s f _ _
    simp [Poller.m2Fold]
  | cons tx rest ih =>
    intro st s f hinv hnodup
    have hhead : ∀ t ∈ st, t.id = tx.id → t = tx :=
      fun t ht h => hinv tx (List.mem_cons_self _ _) t ht h
    have hnotin : tx.id ∉ rest.map Txn.id := (List.nodup_cons.mp hnodup).1
    have hnodup' : (rest.map Txn.id).Nodup := (List.nodup_cons.mp hnodup).2
    have hmain : ∀ (st₁ : Store) (s' f' : Nat),
        st₁ = st.map (fun t => if t.id = tx.id then Poller.m2transform o t else t) →
        (Poller.m2Fold o rest st₁ s' f').1 =
          st.map (fun t =>
            if (tx :: rest).any (fun tx' => tx'.id == t.id) then Poller.m2transform o t else t) := by
      intro st₁ s' f' hst₁
      have hinv' : ∀ tx' ∈ rest, ∀ t ∈ st₁, t.id = tx'.id → t = tx' := by
        intro tx' htx' t ht hid
        rw [hst₁] at ht
        rcases List.mem_map.mp ht with ⟨t₀, ht₀, hmap⟩
        by_cases h0 : t₀.id = tx.id
        · rw [if_pos h0] at hmap
          have hidt : t.id = tx.id := by
            rw [← hmap, Poller.m2transform_id, h0]
          exact absurd (List.mem_map.mpr ⟨tx', htx', hid.symm.trans hidt⟩) hnotin
        · rw [if_neg h0] at hmap
          exact hmap ▸ hinv tx' (List.mem_cons_of_mem _ htx') t₀ ht₀ (hmap ▸ hid)
      rw [ih st₁ s' f' hinv' hnodup', hst₁, List.map_map]
      apply List.map_congr_left
      intro t₀ ht₀
      by_cases h0 : t₀.id = tx.id
      · have hany : ((tx :: rest).any (fun tx' => tx'.id == t₀.id)) = true := by
          simp [List.any_cons, h0]
        have hrest : (rest.any (fun tx' => tx'.id == (Poller.m2transform o t₀).id)) = false := by
          rw [Bool.eq_false_iff]
          intro hc
          rcases List.any_eq_true.mp hc with ⟨tx', htx', hbeq⟩
          have hidtx : tx'.id = tx.id := by
            rw [beq_iff_eq] at hbeq
            rw [hbeq, Poller.m2transform_id, h0]
          exact hnotin (List.mem_map.mpr ⟨tx', htx', hidtx⟩)
        simp only [Function.comp_apply, if_pos h0, hany, hrest, Bool.false_eq_true,
          if_false, eq_self_iff_true, if_true]
      · have hrest : (rest.any (fun tx' => tx'.id == t₀.id)) =
            ((tx :: rest).any (fun tx' => tx'.id == t₀.id)) := by
          simp only [List.any_cons]
          have hne : (tx.id == t₀.id) = false := by
            rw [beq_eq_false_iff_ne]
            exact fun h => h0 h.symm
          rw [hne, Bool.false_or]
        simp only [Function.comp_apply, if_neg h0, ← hrest]
    have hkeep : (∀ t ∈ st, t.id = tx.id → Poller.m2transform o t = t) →
        st = st.map (fun t => if t.id = tx.id then Poller.m2transform o t else t) := by
      intro hfix
      have hmc : st.map (fun t => if t.id = tx.id then Poller.m2transform o t else t) =
          st.map id := by
        apply List.map_congr_left
        intro t ht
        by_cases h0 : t.id = tx.id
        · simp [h0, hfix t ht h0]
        · simp [h0]
      rw [hmc, List.map_id]
    by_cases hshort : (tx.sender_name = "" || tx.sender_name.length < 10 : Bool) = true
    · cases hupdF : o.updErrF tx.id with
      | some e =>
        simp only [Poller.m2Fold, hshort, if_true, hupdF]
        exact hmain st s (f + 1) (hkeep fun t ht h0 => by
          rw [hhead t ht h0]; unfold Poller.m2transform; simp [hshort, hupdF])
      | none =>
        simp only [Poller.m2Fold, hshort, if_true, hupdF]
        apply hmain _ s (f + 1)
        rw [Poller.applyUpdate_eq_map]
        apply List.map_congr_left
        intro t ht
        by_cases h0 : t.id = tx.id
        · rw [if_pos h0, if_pos h0, hhead t ht h0]
          unfold Poller.m2transform
          simp [hshort, hupdF]
        · rw [if_neg h0, if_neg h0]
    · have hshort' : (tx.sender_name = "" || tx.sender_name.length < 10 : Bool) = false := by
        simpa using hshort
      cases hext : Poller.extractWithGemini (o.gem tx.id) with
      | none =>
        cases hupdF : o.updErrF tx.id with
        | some e =>
          simp only [Poller.m2Fold, hshort', Bool.false_eq_true, if_false, hext, hupdF]
          exact hmain st s (f + 1) (hkeep fun t ht h0 => by
            rw [hhead t ht h0]; unfold Poller.m2transform; simp [hshort', hext, hupdF])
        | none =>
          simp only [Poller.m2Fold, hshort', Bool.false_eq_true, if_false, hext, hupdF]
          apply hmain _ s (f + 1)
          rw [Poller.applyUpdate_eq_map]
          apply List.map_congr_left
          intro t ht
          by_cases h0 : t.id = tx.id
          · rw [if_pos h0, if_pos h0, hhead t ht h0]
            unfold Poller.m2transform
            simp [hshort', hext, hupdF]
          · rw [if_neg h0, if_neg h0]
      | some ext =>
        cases hupd : o.updErr tx.id with
        | some e =>
          simp only [Poller.m2Fold, hshort', Bool.false_eq_true, if_false, hext, hupd]
          exact hmain st s (f + 1) (hkeep fun t ht h0 => by
            rw [hhead t ht h0]; unfold Poller.m2transform; simp [hshort', hext, hupd])
        | none =>
          simp only [Poller.m2Fold, hshort', Bool.false_eq_true, if_false, hext, hupd]
          apply hmain _ (s + 1) f
          rw [Poller.applyUpdate_eq_map]
          apply List.map_congr_left
          intro t ht
          by_cases h0 : t.id = tx.id
          · rw [if_pos h0, if_pos h0, hhead t ht h0]
            unfold Poller.m2transform
            simp [hshort', hext, hupd]
          · rw [if_neg h0, if_neg h0]

/-- Mode 2 updates rows in place and never writes `message_id`: the
sequence of `message_id` values in the store is unchanged. -/
theorem Poller.m2Fold_map_msgid (o : Poller.M2Oracles) :
    ∀ (txs : List Txn) (st : Store) (s f : Nat),
      ((Poller.m2Fold o txs st s f).1.map Txn.message_id) = st.map Txn.message_id := by
  intro txs
  induction txs with
  | nil => intro st s f; simp [Poller.m2Fold]
  | cons tx rest ih =>
    intro st s f
    have happ : ∀ (g : Txn → Txn), (∀ t, (g t).message_id = t.message_id) →
        (Poller.applyUpdate st tx.id g).map Txn.message_id = st.map Txn.message_id := by
      intro g hg
      rw [Poller.applyUpdate_eq_map, List.map_map]
      apply List.map_congr_left
      intro t ht
      by_cases h0 : t.id = tx.id <;> simp [Function.comp_apply, h0, hg t]
    by_cases hshort : (tx.sender_name = "" || tx.sender_name.length < 10 : Bool) = true
    · cases hupdF : o.updErrF tx.id with
      | some e =>
        simp only [Poller.m2Fold, hshort, if_true, hupdF]
        exact ih st s (f + 1)
      | none =>
        simp only [Poller.m2Fold, hshort, if_true, hupdF]
        rw [ih]
        exact happ _ (fun t => rfl)
    · have hshort' : (tx.sender_name = "" || tx.sender_name.length < 10 : Bool) = false := by
        simpa using hshort
      cases hext : Poller.extractWithGemini (o.gem tx.id) with
      | none =>
        cases hupdF : o.updErrF tx.id with
        | some e =>
          simp only [Poller.m2Fold, hshort', Bool.false_eq_true, if_false, hext, hupdF]
          exact ih st s (f + 1)
        | none =>
          simp only [Poller.m2Fold, hshort', Bool.false_eq_true, if_false, hext, hupdF]
          rw [ih]
          exact happ _ (fun t => rfl)
      | some ext =>
        cases hupd : o.updErr tx.id with
        | some e =>
          simp only [Poller.m2Fold, hshort', Bool.false_eq_true, if_false, hext, hupd]
          exact ih st s (f + 1)
        | none =>
          simp only [Poller.m2Fold, hshort', Bool.false_eq_true, if_false, hext, hupd]
          rw [ih]
          exact happ _ (fun t => rfl)

/-- Mode 1 appends only rows without a `message_id`, so no
`message_id` lookup result changes. -/
theorem Poller.m1Fold_any_msgid (company : String) (mid : String) :
    ∀ (items : List Poller.M1Item) (st : Store) (s f : Nat),
      ((Poller.m1Fold company items st s f).1.any (fun t => t.message_id == some mid)) =
        st.any (fun t => t.message_id == some mid) := by
  intro items
  induction items with
  | nil => intro st s f; rfl
  | cons it rest ih =>
    intro st s f
    by_cases hf : it.fetchOk
    · cases hext : Poller.extractWithGemini it.gem with
      | none =>
        simp only [Poller.m1Fold, hf, hext, Bool.not_true, Bool.false_eq_true, if_false]
        exact ih st s (f + 1)
      | some ext =>
        cases hins : it.insertErr with
        | none =>
          simp only [Poller.m1Fold, hf, hext, hins, Bool.not_true, Bool.false_eq_true, if_false]
          rw [ih]
          simp [List.any_append]
        | some e =>
          simp only [Poller.m1Fold, hf, hext, hins, Bool.not_true, Bool.false_eq_true, if_false]
          exact ih st s (f + 1)
    · have hf' : it.fetchOk = false := by simpa using hf
      simp only [Poller.m1Fold, hf', Bool.not_false, if_true]
      exact ih st s (f + 1)

theorem OldPoller.itemsFold_store (company : String) :
    ∀ (items : List OldPoller.Item) (st : Store) (res : List Txn),
      ∀ t ∈ (OldPoller.itemsFold company items st res).1,
        t ∈ st ∨ (t.status = "new" ∧ t.message_id = none) := by
  intro items
  induction items with
  | nil => intro st res t ht; exact Or.inl ht
  | cons it rest ih =>
    intro st res t ht
    by_cases hf : it.fetchOk
    · cases hext : OldPoller.extractTransactionFromEmail it.gem with
      | none =>
        simp only [OldPoller.itemsFold, hf, hext, Bool.not_true, Bool.false_eq_true,
          if_false] at ht
        exact ih st res t ht
      | some txData =>
        cases hins : it.insertErr with
        | none =>
          simp only [OldPoller.itemsFold, hf, hext, hins, Bool.not_true, Bool.false_eq_true,
            if_false] at ht
          rcases ih _ _ t ht with h | h
          · rcases List.mem_append.mp h with h' | h'
            · exact Or.inl h'
            · rcases List.mem_singleton.mp h' with rfl
              exact Or.inr ⟨rfl, rfl⟩
          · exact Or.inr h
        | some e =>
          simp only [OldPoller.itemsFold, hf, hext, hins, Bool.not_true, Bool.false_eq_true,
            if_false] at ht
          exact ih st res t ht
    · have hf' : it.fetchOk = false := by simpa using hf
      simp only [OldPoller.itemsFold, hf', Bool.not_false, if_true] at ht
      exact ih st res t ht

theorem OldPoller.itemsFold_any_msgid (company : String) (mid : String) :
    ∀ (items : List OldPoller.Item) (st : Store) (res : List Txn),
      ((OldPoller.itemsFold company items st res).1.any (fun t => t.message_id == some mid)) =
        st.any (fun t => t.message_id == some mid) := by
  intro items
  induction items with
  | nil => intro st res; rfl
  | cons it rest ih =>
    intro st res
    by_cases hf : it.fetchOk
    · cases hext : OldPoller.extractTransactionFromEmail it.gem with
      | none =>
        simp only [OldPoller.itemsFold, hf, hext, Bool.not_true, Bool.false_eq_true, if_false]
        exact ih st res
      | some txData =>
        cases hins : it.insertErr with
        | none =>
          simp only [OldPoller.itemsFold, hf, hext, hins, Bool.not_true, Bool.false_eq_true,
            if_false]
          rw [ih]
          simp [List.any_append]
        | some e =>
          simp only [OldPoller.itemsFold, hf, hext, hins, Bool.not_true, Bool.false_eq_true,
            if_false]
          exact ih st res
    · have hf' : it.fetchOk = false := by simpa using hf
      simp only [OldPoller.itemsFold, hf', Bool.not_false, if_true]
      exact ih st res

/-- With the environment, body and Gmail listing in order, the poller
with an access token runs mode 1. -/
theorem Poller.handler_mode1 (env : Poller.Env) (req : Poller.Req) (store : Store)
    (m1 : Poller.M1Data) (o : Poller.M2Oracles)
    (henv : (jsTruthyStr env.GEMINI_API_KEY && jsTruthyStr env.SUPABASE_URL &&
      jsTruthyStr env.SUPABASE_SERVICE_ROLE_KEY) = true)
    (hcomp : jsTruthyStr req.company_id = true)
    (htok : jsTruthyStr req.access_token = true)
    (hlist : m1.listOk = true) :
    Poller.handler env req store m1 o =
      (⟨200, RBody.pollSummary m1.items.length
          (Poller.m1Fold (req.company_id.getD "") m1.items store 0 0).2.1
          (Poller.m1Fold (req.company_id.getD "") m1.items store 0 0).2.2⟩,
       (Poller.m1Fold (req.company_id.getD "") m1.items store 0 0).1) := by
  unfold Poller.handler
  simp [henv, hcomp, htok, hlist]

/-- With the environment and body in order and no access token, the
poller runs mode 2 over the company's `status = "new"` rows. -/
theorem Poller.handler_mode2 (env : Poller.Env) (req : Poller.Req) (store : Store)
    (m1 : Poller.M1Data) (o : Poller.M2Oracles)
    (henv : (jsTruthyStr env.GEMINI_API_KEY && jsTruthyStr env.SUPABASE_URL &&
      jsTruthyStr env.SUPABASE_SERVICE_ROLE_KEY) = true)
    (hcomp : jsTruthyStr req.company_id = true)
    (htok : jsTruthyStr req.access_token = false)
    (hfetch : o.fetchErr = none) :
    Poller.handler env req store m1 o =
      (⟨200, RBody.pollSummary (store.filter (Poller.isNewOf (req.company_id.getD ""))).length
          (Poller.m2Fold o (store.filter (Poller.isNewOf (req.company_id.getD ""))) store 0 0).2.1
          (Poller.m2Fold o (store.filter (Poller.isNewOf (req.company_id.getD ""))) store 0 0).2.2⟩,
       (Poller.m2Fold o (store.filter (Poller.isNewOf (req.company_id.getD ""))) store 0 0).1) := by
  unfold Poller.handler
  simp [henv, hcomp, htok, hfetch]

/-- C7: handling of a failed extraction.  The claim states that any
no-result extraction — including `amount ≤ 0` or empty `sender_name` —
yields 200 no-payment-data with no insert in webhook mode, and a
`status = "failed"` update in two-phase mode (likewise for raw content
under about 10 characters).  As amended: this holds whenever the
extraction routine actually returns null — which in two-phase mode does
not include `amount ≤ 0`, since that routine accepts any numeric
amount (see the counterexample, where an amount-0 row is updated to
completed instead of failed). -/
theorem claim_C7_no_extraction_handling :
    (∀ (env : Webhook.Env) (req : Webhook.Req) store gem insertErr newId,
      (jsTruthyStr env.GEMINI_API_KEY && jsTruthyStr env.SUPABASE_URL &&
        jsTruthyStr env.ANON_KEY) = true →
      (jsTruthyStr env.WEBHOOK_SECRET && req.secretHeader != env.WEBHOOK_SECRET) = false →
      jsTruthyStr req.company_id = true →
      isAllowedDomain (req.sender.getD "") = true →
      (jsTruthyStr req.message_id &&
        (store.countP (fun t => t.message_id == req.message_id) == 1)) = false →
      Webhook.extractWithGemini gem = none →
      Webhook.handler env req store gem insertErr newId = (⟨200, RBody.noPaymentData⟩, store)) ∧
    (∀ (env : Poller.Env) (req : Poller.Req) store m1 (o : Poller.M2Oracles),
      (jsTruthyStr env.GEMINI_API_KEY && jsTruthyStr env.SUPABASE_URL &&
        jsTruthyStr env.SUPABASE_SERVICE_ROLE_KEY) = true →
      jsTruthyStr req.company_id = true →
      jsTruthyStr req.access_token = false →
      o.fetchErr = none →
      (store.map Txn.id).Nodup →
      ∀ t ∈ store, Poller.isNewOf (req.company_id.getD "") t = true →
        (t.sender_name.length < 10 ∨ Poller.extractWithGemini (o.gem t.id) = none) →
        o.updErrF t.id = none →
        { t with status := "failed" } ∈ (Poller.handler env req store m1 o).2) := by
  constructor
  · intro env req store gem insertErr newId henv hsec hcomp hdom hnodedup hext
    unfold Webhook.handler
    simp [henv, hsec, hcomp, hdom, hnodedup, hext]
  · intro env req store m1 o henv hcomp htok hfetch hids t ht hnew hcase hupdF
    have hinj : ∀ t₁ ∈ store, ∀ t₂ ∈ store, t₁.id = t₂.id → t₁ = t₂ := by
      intro t₁ h₁ t₂ h₂ h
      exact List.inj_on_of_nodup_map hids h₁ h₂ h
    have hinv : ∀ tx ∈ store.filter (Poller.isNewOf (req.company_id.getD "")),
        ∀ t' ∈ store, t'.id = tx.id → t' = tx :=
      fun tx htx t' ht' h => hinj t' ht' tx (List.mem_of_mem_filter htx) h
    have hnodup2 : ((store.filter (Poller.isNewOf (req.company_id.getD ""))).map Txn.id).Nodup :=
      hids.sublist (List.Sublist.map Txn.id (List.filter_sublist store))
    rw [Poller.handler_mode2 env req store m1 o henv hcomp htok hfetch]
    show _ ∈ (Poller.m2Fold o (store.filter (Poller.isNewOf (req.company_id.getD ""))) store 0 0).1
    rw [Poller.m2Fold_store_eq o _ store 0 0 hinv hnodup2]
    have hmem : t ∈ store.filter (Poller.isNewOf (req.company_id.getD "")) :=
      List.mem_filter.mpr ⟨ht, hnew⟩
    have hany : ((store.filter (Poller.isNewOf (req.company_id.getD ""))).any
        (fun tx => tx.id == t.id)) = true :=
      List.any_eq_true.mpr ⟨t, hmem, by simp⟩
    have htr : Poller.m2transform o t = { t with status := "failed" } := by
      unfold Poller.m2transform
      rcases hcase with hlen | hnone
      · have hs : (t.sender_name = "" || t.sender_name.length < 10 : Bool) = true := by
          simp [hlen]
        simp [hs, hupdF]
      · by_cases hs : (t.sender_name = "" || t.sender_name.length < 10 : Bool) = true
        · simp [hs, hupdF]
        · have hs' : (t.sender_name = "" || t.sender_name.length < 10 : Bool) = false := by
            simpa using hs
          simp [hs', hnone, hupdF]
    refine List.mem_map.mpr ⟨t, ht, ?_⟩
    simp [hany, htr]

/-- C7 counterexample: a two-phase row whose extraction returns
`amount = 0` (with a non-empty sender) is updated to completed, not
failed, contradicting the claim for the `amount ≤ 0` case. -/
theorem claim_C7_counterexample :
    Poller.handler ⟨some "g", some "u", some "k"⟩ ⟨some "c1", none⟩
        [⟨7, "c1", 1, "Raw alert text from the bank", "B", "new", none⟩]
        ⟨true, 200, []⟩
        ⟨fun _ => ⟨true, some "\x7b\"amount\": 0, \"sender_name\": \"John Doe\"\x7d"⟩,
         fun _ => none, fun _ => none, none⟩ =
      (⟨200, RBody.pollSummary 1 1 0⟩,
       [⟨7, "c1", 0, "John Doe", "Unknown", "completed", none⟩]) := by
  with_unfolding_all rfl

/-- C7 witness: the theorem applied at a concrete webhook request with a
null extraction and at a concrete two-phase row with short raw text. -/
theorem claim_C7_witness :
    Webhook.handler ⟨some "g", some "u", some "a", none⟩
        ⟨none, some "alerts@gtbank.com", some "Credit", some "body text", none, some "c1", none⟩
        [] ⟨true, some "null"⟩ none 1 = (⟨200, RBody.noPaymentData⟩, []) ∧
    (⟨3, "c1", 5, "short", "B", "failed", none⟩ : Txn) ∈
      (Poller.handler ⟨some "g", some "u", some "k"⟩ ⟨some "c1", none⟩
        [⟨3, "c1", 5, "short", "B", "new", none⟩] ⟨true, 200, []⟩
        ⟨fun _ => ⟨false, none⟩, fun _ => none, fun _ => none, none⟩).2 :=
  ⟨claim_C7_no_extraction_handling.1 _ _ _ _ _ _ (by decide) (by decide) (by decide)
      (by decide) (by decide) (by with_unfolding_all rfl),
   claim_C7_no_extraction_handling.2 _ _ _ _ _ (by decide) (by decide) (by decide) rfl
      (by decide) _ (List.Mem.head _) (by decide) (Or.inl (by decide)) rfl⟩

/-- C8: phase B touches only `status = "new"` rows of the company.
Under unique row ids, the resulting store is a pointwise map that
transforms exactly the selected rows and leaves every other row
unchanged; with zero `status = "new"` rows the call is a no-op
returning `processed = 0`. -/
theorem claim_C8_phase_b_idempotent (env : Poller.Env) (req : Poller.Req) (store : Store)
    (m1 : Poller.M1Data) (o : Poller.M2Oracles)
    (henv : (jsTruthyStr env.GEMINI_API_KEY && jsTruthyStr env.SUPABASE_URL &&
      jsTruthyStr env.SUPABASE_SERVICE_ROLE_KEY) = true)
    (hcomp : jsTruthyStr req.company_id = true)
    (htok : jsTruthyStr req.access_token = false)
    (hfetch : o.fetchErr = none)
    (hids : (store.map Txn.id).Nodup) :
    (Poller.handler env req store m1 o).2 =
      store.map (fun t =>
        if Poller.isNewOf (req.company_id.getD "") t then Poller.m2transform o t else t) ∧
    (store.filter (Poller.isNewOf (req.company_id.getD "")) = [] →
      Poller.handler env req store m1 o = (⟨200, RBody.pollSummary 0 0 0⟩, store)) := by
  have hinj : ∀ t₁ ∈ store, ∀ t₂ ∈ store, t₁.id = t₂.id → t₁ = t₂ := by
    intro t₁ h₁ t₂ h₂ h
    exact List.inj_on_of_nodup_map hids h₁ h₂ h
  have hinv : ∀ tx ∈ store.filter (Poller.isNewOf (req.company_id.getD "")),
      ∀ t' ∈ store, t'.id = tx.id → t' = tx :=
    fun tx htx t' ht' h => hinj t' ht' tx (List.mem_of_mem_filter htx) h
  have hnodup2 : ((store.filter (Poller.isNewOf (req.company_id.getD ""))).map Txn.id).Nodup :=
    hids.sublist (List.Sublist.map Txn.id (List.filter_sublist store))
  constructor
  · rw [Poller.handler_mode2 env req store m1 o henv hcomp htok hfetch]
    show (Poller.m2Fold o (store.filter (Poller.isNewOf (req.company_id.getD ""))) store 0 0).1 = _
    rw [Poller.m2Fold_store_eq o _ store 0 0 hinv hnodup2]
    apply List.map_congr_left
    intro t ht
    by_cases hnew : Poller.isNewOf (req.company_id.getD "") t = true
    · have hmem : t ∈ store.filter (Poller.isNewOf (req.company_id.getD "")) :=
        List.mem_filter.mpr ⟨ht, hnew⟩
      have hany : ((store.filter (Poller.isNewOf (req.company_id.getD ""))).any
          (fun tx => tx.id == t.id)) = true :=
        List.any_eq_true.mpr ⟨t, hmem, by simp⟩
      simp [hany, hnew]
    · have hany : ((store.filter (Poller.isNewOf (req.company_id.getD ""))).any
          (fun tx => tx.id == t.id)) = false := by
        rw [Bool.eq_false_iff]
        intro hc
        rcases List.any_eq_true.mp hc with ⟨tx, htx, hbeq⟩
        rw [beq_iff_eq] at hbeq
        have : tx = t := hinj tx (List.mem_of_mem_filter htx) t ht hbeq
        exact hnew (this ▸ (List.mem_filter.mp htx).2)
      simp [hany, hnew]
  · intro hemp
    rw [Poller.handler_mode2 env req store m1 o henv hcomp htok hfetch, hemp]
    simp [Poller.m2Fold]

/-- C8 witness: the theorem applied at a store with no `new` rows for
the company: the call is a no-op with `processed = 0`. -/
theorem claim_C8_witness :
    Poller.handler ⟨some "g", some "u", some "k"⟩ ⟨some "c1", none⟩
        [⟨1, "c1", 5, "Somebody Person", "B", "completed", none⟩] ⟨true, 200, []⟩
        ⟨fun _ => ⟨false, none⟩, fun _ => none, fun _ => none, none⟩ =
      (⟨200, RBody.pollSummary 0 0 0⟩,
       [⟨1, "c1", 5, "Somebody Person", "B", "completed", none⟩]) :=
  (claim_C8_phase_b_idempotent _ _ _ _ _ (by decide) (by decide) (by decide) rfl
    (by decide)).2 (by decide)

/-- C9: batch isolation.  In both modes each candidate item is counted
in exactly one of `succeeded`/`failed`, the counts are per-item
functions of that item's own oracles (so one item's failure cannot
affect another's outcome), and the loop always terminates in a 200
summary with `succeeded + failed = processed`. -/
theorem claim_C9_batch_isolation :
    (∀ (env : Poller.Env) (req : Poller.Req) store m1 (o : Poller.M2Oracles),
      (jsTruthyStr env.GEMINI_API_KEY && jsTruthyStr env.SUPABASE_URL &&
        jsTruthyStr env.SUPABASE_SERVICE_ROLE_KEY) = true →
      jsTruthyStr req.company_id = true →
      jsTruthyStr req.access_token = true →
      m1.listOk = true →
      (Poller.handler env req store m1 o).1 =
        ⟨200, RBody.pollSummary m1.items.length (m1.items.countP Poller.m1succ)
          (m1.items.countP fun it => !(Poller.m1succ it))⟩ ∧
      m1.items.countP Poller.m1succ + m1.items.countP (fun it => !(Poller.m1succ it)) =
        m1.items.length) ∧
    (∀ (env : Poller.Env) (req : Poller.Req) store m1 (o : Poller.M2Oracles),
      (jsTruthyStr env.GEMINI_API_KEY && jsTruthyStr env.SUPABASE_URL &&
        jsTruthyStr env.SUPABASE_SERVICE_ROLE_KEY) = true →
      jsTruthyStr req.company_id = true →
      jsTruthyStr req.access_token = false →
      o.fetchErr = none →
      (Poller.handler env req store m1 o).1 =
        ⟨200, RBody.pollSummary (store.filter (Poller.isNewOf (req.company_id.getD ""))).length
          ((store.filter (Poller.isNewOf (req.company_id.getD ""))).countP (Poller.m2succ o))
          ((store.filter (Poller.isNewOf (req.company_id.getD ""))).countP
            fun tx => !(Poller.m2succ o tx))⟩ ∧
      ((store.filter (Poller.isNewOf (req.company_id.getD ""))).countP (Poller.m2succ o)) +
        ((store.filter (Poller.isNewOf (req.company_id.getD ""))).countP
          fun tx => !(Poller.m2succ o tx)) =
        (store.filter (Poller.isNewOf (req.company_id.getD ""))).length) := by
  constructor
  · intro env req store m1 o henv hcomp htok hlist
    rw [Poller.handler_mode1 env req store m1 o henv hcomp htok hlist]
    rcases Poller.m1Fold_counts (req.company_id.getD "") m1.items store 0 0 with ⟨h1, h2⟩
    constructor
    · simp only [h1, h2, Nat.zero_add]
    · exact countP_split _ _
  · intro env req store m1 o henv hcomp htok hfetch
    rw [Poller.handler_mode2 env req store m1 o henv hcomp htok hfetch]
    rcases Poller.m2Fold_counts o (store.filter (Poller.isNewOf (req.company_id.getD "")))
      store 0 0 with ⟨h1, h2⟩
    constructor
    · simp only [h1, h2, Nat.zero_add]
    · exact countP_split _ _

/-- C9 witness: the theorem applied at a concrete three-item batch whose
middle item fails its fetch: counts are 2 succeeded, 1 failed. -/
theorem claim_C9_witness :
    (Poller.handler ⟨some "g", some "u", some "k"⟩ ⟨some "c1", some "tok"⟩ []
        ⟨true, 200,
          [⟨1, true, ⟨true, some "\x7b\"amount\": 5, \"sender_name\": \"Ann Bee\"\x7d"⟩, none⟩,
           ⟨2, false, ⟨false, none⟩, none⟩,
           ⟨3, true, ⟨true, some "\x7b\"amount\": 9, \"sender_name\": \"Cee Dee\"\x7d"⟩, none⟩]⟩
        ⟨fun _ => ⟨false, none⟩, fun _ => none, fun _ => none, none⟩).1 =
      ⟨200, RBody.pollSummary 3 2 1⟩ := by
  have h := (claim_C9_batch_isolation.1 ⟨some "g", some "u", some "k"⟩ ⟨some "c1", some "tok"⟩ []
    ⟨true, 200,
      [⟨1, true, ⟨true, some "\x7b\"amount\": 5, \"sender_name\": \"Ann Bee\"\x7d"⟩, none⟩,
       ⟨2, false, ⟨false, none⟩, none⟩,
       ⟨3, true, ⟨true, some "\x7b\"amount\": 9, \"sender_name\": \"Cee Dee\"\x7d"⟩, none⟩]⟩
    ⟨fun _ => ⟨false, none⟩, fun _ => none, fun _ => none, none⟩
    (by decide) (by decide) (by decide) rfl).1
  rw [h]
  with_unfolding_all rfl

theorem any_msgid_congr (st₁ st₂ : Store) (mid : String)
    (h : st₁.map Txn.message_id = st₂.map Txn.message_id) :
    (st₁.any fun t => t.message_id == some mid) = (st₂.any fun t => t.message_id == some mid) := by
  have gen : ∀ (l : Store), (l.any fun t => t.message_id == some mid) =
      ((l.map Txn.message_id).any fun m => m == some mid) := by
    intro l
    induction l with
    | nil => rfl
    | cons a l ih => simp [List.any_cons, ih]
  rw [gen, gen, h]

/-- C10: poll-mode inserts carry no `message_id`.  Every row added by
the dual-mode poller's Gmail-fetch mode or by the standalone poller has
`message_id = none`, and consequently no run of either poller ever
changes the result of the webhook's `message_id` dedup lookup: a
poll-inserted transaction can never be matched by it. -/
theorem claim_C10_poll_inserts_unmatchable :
    (∀ (env : Poller.Env) (req : Poller.Req) store m1 (o : Poller.M2Oracles),
      jsTruthyStr req.access_token = true →
      ∀ t ∈ (Poller.handler env req store m1 o).2, t ∈ store ∨ t.message_id = none) ∧
    (∀ (env : OldPoller.Env) cid store lOk lSt (items : List OldPoller.Item),
      ∀ t ∈ (OldPoller.handler env cid store lOk lSt items).2,
        t ∈ store ∨ t.message_id = none) ∧
    (∀ (env : Poller.Env) (req : Poller.Req) store m1 (o : Poller.M2Oracles) (mid : String),
      ((Poller.handler env req store m1 o).2.any (fun t => t.message_id == some mid)) =
        store.any (fun t => t.message_id == some mid)) ∧
    (∀ (env : OldPoller.Env) cid store lOk lSt (items : List OldPoller.Item) (mid : String),
      ((OldPoller.handler env cid store lOk lSt items).2.any
          (fun t => t.message_id == some mid)) =
        store.any (fun t => t.message_id == some mid)) := by
  refine ⟨?_, ?_, ?_, ?_⟩
  · intro env req store m1 o htok t ht
    unfold Poller.handler at ht
    by_cases h1 : (jsTruthyStr env.GEMINI_API_KEY && jsTruthyStr env.SUPABASE_URL &&
        jsTruthyStr env.SUPABASE_SERVICE_ROLE_KEY) = true
    · by_cases h2 : jsTruthyStr req.company_id = true
      · by_cases h3 : m1.listOk = true
        · simp only [h1, h2, h3, htok, Bool.not_true, Bool.false_eq_true, if_false,
            if_true] at ht
          rcases Poller.m1Fold_store (req.company_id.getD "") m1.items store 0 0 t ht with
            h | h
          · exact Or.inl h
          · exact Or.inr h.2
        · have h3' : m1.listOk = false := by simpa using h3
          simp only [h1, h2, h3', htok, Bool.not_true, Bool.not_false, Bool.false_eq_true,
            if_false, if_true] at ht
          exact Or.inl ht
      · have h2' : jsTruthyStr req.company_id = false := by simpa using h2
        simp only [h1, h2', Bool.not_true, Bool.not_false, Bool.false_eq_true, if_false,
          if_true] at ht
        exact Or.inl ht
    · have h1' : (jsTruthyStr env.GEMINI_API_KEY && jsTruthyStr env.SUPABASE_URL &&
          jsTruthyStr env.SUPABASE_SERVICE_ROLE_KEY) = false := by simpa using h1
      simp only [h1', Bool.not_false, if_true] at ht
      exact Or.inl ht
  · intro env cid store lOk lSt items t ht
    unfold OldPoller.handler at ht
    by_cases h1 : (jsTruthyStr env.GMAIL_ACCESS_TOKEN && jsTruthyStr env.GEMINI_API_KEY &&
        jsTruthyStr env.SUPABASE_URL && jsTruthyStr env.SUPABASE_SERVICE_ROLE_KEY) = true
    · by_cases h2 : jsTruthyStr cid = true
      · by_cases h3 : lOk = true
        · simp only [h1, h2, h3, Bool.not_true, Bool.false_eq_true, if_false] at ht
          rcases OldPoller.itemsFold_store (cid.getD "") items store [] t ht with h | h
          · exact Or.inl h
          · exact Or.inr h.2
        · have h3' : lOk = false := by simpa using h3
          simp only [h1, h2, h3', Bool.not_true, Bool.not_false, Bool.false_eq_true,
            if_false, if_true] at ht
          exact Or.inl ht
      · have h2' : jsTruthyStr cid = false := by simpa using h2
        simp only [h1, h2', Bool.not_true, Bool.not_false, Bool.false_eq_true, if_false,
          if_true] at ht
        exact Or.inl ht
    · have h1' : (jsTruthyStr env.GMAIL_ACCESS_TOKEN && jsTruthyStr env.GEMINI_API_KEY &&
          jsTruthyStr env.SUPABASE_URL && jsTruthyStr env.SUPABASE_SERVICE_ROLE_KEY) = false := by
        simpa using h1
      simp only [h1', Bool.not_false, if_true] at ht
      exact Or.inl ht
  · intro env req store m1 o mid
    unfold Poller.handler
    by_cases h1 : (jsTruthyStr env.GEMINI_API_KEY && jsTruthyStr env.SUPABASE_URL &&
        jsTruthyStr env.SUPABASE_SERVICE_ROLE_KEY) = true
    · by_cases h2 : jsTruthyStr req.company_id = true
      · by_cases h4 : jsTruthyStr req.access_token = true
        · by_cases h3 : m1.listOk = true
          · simp only [h1, h2, h3, h4, Bool.not_true, Bool.false_eq_true, if_false, if_true]
            exact Poller.m1Fold_any_msgid (req.company_id.getD "") mid m1.items store 0 0
          · have h3' : m1.listOk = false := by simpa using h3
            simp only [h1, h2, h3', h4, Bool.not_true, Bool.not_false, Bool.false_eq_true,
              if_false, if_true]
        · have h4' : jsTruthyStr req.access_token = false := by simpa using h4
          cases hfe : o.fetchErr with
          | some e =>
            simp only [h1, h2, h4', hfe, Bool.not_true, Bool.false_eq_true, if_false]
          | none =>
            simp only [h1, h2, h4', hfe, Bool.not_true, Bool.false_eq_true, if_false]
            exact any_msgid_congr _ _ mid
              (Poller.m2Fold_map_msgid o
                (store.filter (Poller.isNewOf (req.company_id.getD ""))) store 0 0)
      · have h2' : jsTruthyStr req.company_id = false := by simpa using h2
        simp only [h1, h2', Bool.not_true, Bool.not_false, Bool.false_eq_true, if_false,
          if_true]
    · have h1' : (jsTruthyStr env.GEMINI_API_KEY && jsTruthyStr env.SUPABASE_URL &&
          jsTruthyStr env.SUPABASE_SERVICE_ROLE_KEY) = false := by simpa using h1
      simp only [h1', Bool.not_false, if_true]
  · intro env cid store lOk lSt items mid
    unfold OldPoller.handler
    by_cases h1 : (jsTruthyStr env.GMAIL_ACCESS_TOKEN && jsTruthyStr env.GEMINI_API_KEY &&
        jsTruthyStr env.SUPABASE_URL && jsTruthyStr env.SUPABASE_SERVICE_ROLE_KEY) = true
    · by_cases h2 : jsTruthyStr cid = true
      · by_cases h3 : lOk = true
        · simp only [h1, h2, h3, Bool.not_true, Bool.false_eq_true, if_false]
          exact OldPoller.itemsFold_any_msgid (cid.getD "") mid items store []
        · have h3' : lOk = false := by simpa using h3
          simp only [h1, h2, h3', Bool.not_true, Bool.not_false, Bool.false_eq_true,
            if_false, if_true]
      · have h2' : jsTruthyStr cid = false := by simpa using h2
        simp only [h1, h2', Bool.not_true, Bool.not_false, Bool.false_eq_true, if_false,
          if_true]
    · have h1' : (jsTruthyStr env.GMAIL_ACCESS_TOKEN && jsTruthyStr env.GEMINI_API_KEY &&
          jsTruthyStr env.SUPABASE_URL && jsTruthyStr env.SUPABASE_SERVICE_ROLE_KEY) = false := by
        simpa using h1
      simp only [h1', Bool.not_false, if_true]

/-- C10 witness: the theorem applied at a concrete Gmail-fetch insert
and at a concrete dedup lookup over its result. -/
theorem claim_C10_witness :
    ((⟨4, "c1", 9, "Cee Dee", "Unknown", "completed", none⟩ : Txn) ∈
        ([⟨9, "c1", 5, "Old Row", "B", "completed", some "m9"⟩] : Store) ∨
      (⟨4, "c1", 9, "Cee Dee", "Unknown", "completed", none⟩ : Txn).message_id = none) ∧
    ((Poller.handler ⟨some "g", some "u", some "k"⟩ ⟨some "c1", some "tok"⟩
        [⟨9, "c1", 5, "Old Row", "B", "completed", some "m9"⟩]
        ⟨true, 200, [⟨4, true, ⟨true, some "\x7b\"amount\": 9, \"sender_name\": \"Cee Dee\"\x7d"⟩, none⟩]⟩
        ⟨fun _ => ⟨false, none⟩, fun _ => none, fun _ => none, none⟩).2.any
        (fun t => t.message_id == some "m1")) =
      ([⟨9, "c1", 5, "Old Row", "B", "completed", some "m9"⟩] : Store).any
        (fun t => t.message_id == some "m1") :=
  ⟨claim_C10_poll_inserts_unmatchable.1 ⟨some "g", some "u", some "k"⟩ ⟨some "c1", some "tok"⟩
      [⟨9, "c1", 5, "Old Row", "B", "completed", some "m9"⟩]
      ⟨true, 200, [⟨4, true, ⟨true, some "\x7b\"amount\": 9, \"sender_name\": \"Cee Dee\"\x7d"⟩, none⟩]⟩
      ⟨fun _ => ⟨false, none⟩, fun _ => none, fun _ => none, none⟩
      (by decide) _ (by with_unfolding_all exact List.mem_cons_of_mem _ (List.Mem.head _)),
   claim_C10_poll_inserts_unmatchable.2.2.1 ⟨some "g", some "u", some "k"⟩
      ⟨some "c1", some "tok"⟩ [⟨9, "c1", 5, "Old Row", "B", "completed", some "m9"⟩]
      ⟨true, 200, [⟨4, true, ⟨true, some "\x7b\"amount\": 9, \"sender_name\": \"Cee Dee\"\x7d"⟩, none⟩]⟩
      ⟨fun _ => ⟨false, none⟩, fun _ => none, fun _ => none, none⟩ "m1"⟩

end Confam
